import Mathlib

/-!
Shallow embedding of the staking-options / perp-edit core of the
Dual-Finance mango-v4 repository.

The instruction handlers `staking_options_exercise`,
`staking_options_liq` / `liquidation_action` and `perp_edit_market` are
translated from `src/programs/mango-v4/src/instructions/`.
Fixed-point I80F48 quantities are modelled as exact rationals; u64
quantities as Nat with explicit checked subtraction (the source builds
with overflow checks, so u64 underflow aborts the transaction).
Solana transaction semantics make every instruction atomic: a handler
either returns its complete post-state or an error, so an error result
models an abort with no observable mutation.

The bank ledger operations, the health engine and the account-position
helpers are used by the instructions but their bodies are not part of the
source tree here; each of those definitions is modelled from the spec and
says so in its doc comment.
-/

namespace Mango

/-- The two strictness levels of the health computation. -/
inductive HealthType where
  | init
  | maint
deriving DecidableEq, Repr

/-- Error outcomes of an instruction. Constructors follow the error codes
the instruction sources name; mathError stands for an arithmetic abort
(u64 underflow or fixed-point division by zero), cpiFailed for a rejection
by the external staking-options program. -/
inductive MangoError where
  | someError
  | stakingOptionsError
  | healthMustBePositive
  | healthMustBePositiveOrIncrease
  | tokenPositionDoesNotExist
  | requireViolation
  | stalePriceOrNoData
  | mathError
  | cpiFailed
deriving DecidableEq, Repr

instance {α : Type} [DecidableEq α] : DecidableEq (Except MangoError α) := fun x y =>
  match x, y with
  | .error a, .error b =>
    if h : a = b then .isTrue (by rw [h]) else .isFalse (by simp [h])
  | .error _, .ok _ => .isFalse (by simp)
  | .ok _, .error _ => .isFalse (by simp)
  | .ok a, .ok b =>
    if h : a = b then .isTrue (by rw [h]) else .isFalse (by simp [h])

/-- Modelled from the spec: the oracle price of one token viewed through
both strictness levels (spec sections 3 and 6); the derivation of the
asset/liab health prices from the raw oracle feed is outside this core, so
the five values are independent inputs. -/
structure Prices where
  oracle : ℚ
  asset_init : ℚ
  liab_init : ℚ
  asset_maint : ℚ
  liab_maint : ℚ
deriving DecidableEq, Repr

def Prices.asset (p : Prices) : HealthType → ℚ
  | .init => p.asset_init
  | .maint => p.asset_maint

def Prices.liab (p : Prices) : HealthType → ℚ
  | .init => p.liab_init
  | .maint => p.liab_maint

/-- The per-asset ledger fields consumed by the embedded instructions
(spec section 3). Keys (state address, vault address) are Nat, with 0 the
default key. -/
structure Bank where
  token_index : Nat
  init_asset_weight : ℚ
  init_liab_weight : ℚ
  maint_asset_weight : ℚ
  maint_liab_weight : ℚ
  liquidation_fee : ℚ
  loan_origination_fee_rate : ℚ
  staking_options_expiration : Nat
  staking_options_state : Nat
  vault : Nat
deriving DecidableEq, Repr

/-- Modelled from the spec: a token position stores a signed balance and
occupies an account slot while active (spec section 3). The source keeps
an indexed position that is converted through the bank's interest indices;
no operation modelled here advances the indices, so the position carries
its native balance directly. -/
structure TokenPosition where
  token_index : Nat
  native_balance : ℚ
  active : Bool
deriving DecidableEq, Repr

def TokenPosition.is_active (p : TokenPosition) : Bool := p.active

def TokenPosition.is_active_for_token (p : TokenPosition) (i : Nat) : Bool :=
  p.active && p.token_index == i

/-- The current native balance of a position, as the source's
position.native(bank) reads it. -/
def TokenPosition.native (p : TokenPosition) (_b : Bank) : ℚ := p.native_balance

/-- The account fields consumed by the embedded instructions: ownership,
the health-region exemption flag, and the token position slots. -/
structure Account where
  owner : Nat
  delegate : Nat
  in_health_region : Bool
  tokens : List TokenPosition
deriving DecidableEq, Repr

def Account.is_in_health_region (a : Account) : Bool := a.in_health_region

def Account.is_owner_or_delegate (a : Account) (k : Nat) : Bool :=
  a.owner == k || a.delegate == k

/-- First active position for a token index, together with its raw slot
index (the source's token_position lookups only ever see active slots). -/
def find_token_position : List TokenPosition → Nat → Option (TokenPosition × Nat)
  | [], _ => none
  | p :: ps, i =>
    if p.is_active_for_token i then some (p, 0)
    else (find_token_position ps i).map (fun q => (q.1, q.2 + 1))

/-- Modelled from the spec: look up the account's active position for a
token, failing when the account holds none (the exercise path never
creates positions, spec section 4.4 / section 3 lifecycle). -/
def Account.token_position_and_raw_index (a : Account) (i : Nat) :
    Except MangoError (TokenPosition × Nat) :=
  match find_token_position a.tokens i with
  | some pr => .ok pr
  | none => .error .tokenPositionDoesNotExist

/-- Write back a mutated position into its slot. -/
def Account.set_position (a : Account) (r : Nat) (p : TokenPosition) : Account :=
  { a with tokens := a.tokens.set r p }

/-- Modelled from the spec: deactivating a position frees its slot
(spec section 3, lifecycle). The audit-log emission is out of scope. -/
def Account.deactivate_token_position_and_log (a : Account) (r : Nat) : Account :=
  let q : TokenPosition :=
    match a.tokens[r]? with
    | some p => { p with active := false }
    | none => { token_index := 0, native_balance := 0, active := false }
  { a with tokens := a.tokens.set r q }

/-- Modelled from the spec: a position is created when an account first
touches an asset (spec section 3); returns the (possibly extended)
account, the position and its raw index. -/
def Account.ensure_token_position (a : Account) (i : Nat) :
    Account × TokenPosition × Nat :=
  match find_token_position a.tokens i with
  | some pr => (a, pr.1, pr.2)
  | none =>
    let p : TokenPosition := { token_index := i, native_balance := 0, active := true }
    ({ a with tokens := a.tokens ++ [p] }, p, a.tokens.length)

/-- Modelled from the spec: dusting forces a negligible non-negative
residue (below one native unit) to exactly zero (spec sections 3 and 4.1). -/
def dusted (n : ℚ) : ℚ := if 0 ≤ n ∧ n < 1 then 0 else n

/-- Modelled from the spec: deposit increases the native balance by the
amount (spec section 4.1); the returned flag reports whether the position
is still active (nonzero) afterwards. -/
def Bank.deposit (_b : Bank) (p : TokenPosition) (amount : ℚ) :
    TokenPosition × Bool :=
  let n := p.native_balance + amount
  ({ p with native_balance := n }, n != 0)

/-- Modelled from the spec: deposit with dusting of the resulting balance,
used during liquidation so the liquidatee keeps no negligible residue
(spec section 4.1). -/
def Bank.deposit_with_dusting (_b : Bank) (p : TokenPosition) (amount : ℚ) :
    TokenPosition × Bool :=
  let n := dusted (p.native_balance + amount)
  ({ p with native_balance := n }, n != 0)

/-- Modelled from the spec: withdraw decreases the native balance; when the
position flips from non-negative to negative a loan origination fee on the
newly borrowed amount is charged to the position and reported separately
(spec section 4.1). -/
def Bank.withdraw_with_fee (b : Bank) (p : TokenPosition) (amount : ℚ) :
    TokenPosition × Bool × ℚ :=
  let n := p.native_balance - amount
  let fee := if 0 ≤ p.native_balance ∧ n < 0 then b.loan_origination_fee_rate * (-n) else 0
  let n2 := n - fee
  ({ p with native_balance := n2 }, n2 != 0, fee)

/-- Modelled from the spec: fee-free withdraw with dusting, used for
instruments that cannot be borrowed (spec section 4.1). -/
def Bank.withdraw_without_fee_with_dusting (_b : Bank) (p : TokenPosition) (amount : ℚ) :
    TokenPosition × Bool :=
  let n := dusted (p.native_balance - amount)
  ({ p with native_balance := n }, n != 0)

/-- Modelled from the spec: one entry of the ephemeral health snapshot,
holding the token's current native balance, its prices at both strictness
levels and the bank's risk weights (spec section 3, HealthCache). -/
structure TokenInfo where
  token_index : Nat
  balance_native : ℚ
  prices : Prices
  init_asset_weight : ℚ
  init_liab_weight : ℚ
  maint_asset_weight : ℚ
  maint_liab_weight : ℚ
deriving DecidableEq, Repr

def TokenInfo.asset_weight (ti : TokenInfo) : HealthType → ℚ
  | .init => ti.init_asset_weight
  | .maint => ti.maint_asset_weight

def TokenInfo.liab_weight (ti : TokenInfo) : HealthType → ℚ
  | .init => ti.init_liab_weight
  | .maint => ti.maint_liab_weight

/-- Modelled from the spec: the health contribution of one token — a
non-negative balance counts at the asset weight and asset price, a
negative balance at the liab weight and liab price (spec section 4.2). -/
def TokenInfo.contribution (ti : TokenInfo) (t : HealthType) : ℚ :=
  if 0 ≤ ti.balance_native then
    ti.balance_native * ti.asset_weight t * ti.prices.asset t
  else
    ti.balance_native * ti.liab_weight t * ti.prices.liab t

/-- Modelled from the spec: the per-call health snapshot (spec section 3). -/
structure HealthCache where
  token_infos : List TokenInfo
deriving DecidableEq, Repr

/-- Modelled from the spec: total health at a strictness level is the sum
of the per-token contributions (spec section 4.2); the account states
embedded here carry no perp positions, so the token sum is the total. -/
def HealthCache.health (hc : HealthCache) (t : HealthType) : ℚ :=
  (hc.token_infos.map (fun ti => ti.contribution t)).sum

def HealthCache.token_info (hc : HealthCache) (i : Nat) : Option TokenInfo :=
  hc.token_infos.find? (fun ti => ti.token_index == i)

/-- Add a delta to the first snapshot entry of the given token index. -/
def adjust_first : List TokenInfo → Nat → ℚ → List TokenInfo
  | [], _, _ => []
  | ti :: tis, i, d =>
    if ti.token_index == i then
      { ti with balance_native := ti.balance_native + d } :: tis
    else ti :: adjust_first tis i d

/-- Modelled from the spec: incrementally shift the cached balance of one
token by a delta, keeping the price snapshot (spec section 4.2); fails if
the cache has no entry for the token. -/
def HealthCache.adjust_token_balance (hc : HealthCache) (b : Bank) (delta : ℚ) :
    Except MangoError HealthCache :=
  if hc.token_infos.any (fun ti => ti.token_index == b.token_index) then
    .ok { token_infos := adjust_first hc.token_infos b.token_index delta }
  else .error .mathError

/-- One entry of the account retriever: the bank and oracle prices of one
token, as presented through the instruction's remaining accounts. -/
structure RetrieverEntry where
  bank : Bank
  prices : Prices
deriving DecidableEq, Repr

abbrev Retriever := List RetrieverEntry

def lookup_bank (r : Retriever) (i : Nat) : Option RetrieverEntry :=
  r.find? (fun e => e.bank.token_index == i)

/-- Snapshot entry for one position, from the retriever's bank and prices. -/
def mk_token_info (p : TokenPosition) (e : RetrieverEntry) : TokenInfo :=
  { token_index := p.token_index
    balance_native := p.native_balance
    prices := e.prices
    init_asset_weight := e.bank.init_asset_weight
    init_liab_weight := e.bank.init_liab_weight
    maint_asset_weight := e.bank.maint_asset_weight
    maint_liab_weight := e.bank.maint_liab_weight }

def token_info_for (r : Retriever) (p : TokenPosition) : Except MangoError TokenInfo :=
  match lookup_bank r p.token_index with
  | some e => .ok (mk_token_info p e)
  | none => .error .stalePriceOrNoData

/-- Snapshot entries for every active position, in slot order. -/
def health_infos : List TokenPosition → Retriever → Except MangoError (List TokenInfo)
  | [], _ => .ok []
  | p :: ps, r =>
    if p.is_active then do
      let ti ← token_info_for r p
      let rest ← health_infos ps r
      pure (ti :: rest)
    else health_infos ps r

/-- Modelled from the spec: build the health snapshot of an account from
the retriever, failing closed when a bank or price is unavailable for a
token with an active position (spec sections 4.2 and 6). -/
def new_health_cache (a : Account) (r : Retriever) : Except MangoError HealthCache := do
  let tis ← health_infos a.tokens r
  pure { token_infos := tis }

/-- Modelled from the spec: compute an account's health at a strictness
level directly from a fresh snapshot (spec section 4.2). -/
def compute_health (a : Account) (t : HealthType) (r : Retriever) : Except MangoError ℚ := do
  let hc ← new_health_cache a r
  pure (hc.health t)

/-- Modelled from the spec: capture the Init health value before any
mutation (spec section 4.4 step 1). -/
def check_health_pre (hc : HealthCache) : ℚ := hc.health .init

/-- Modelled from the spec: after the mutation, require post-Init health at
or above the captured pre-Init health value, not merely at or above zero
(spec section 4.4 step 7). -/
def check_health_post (hc : HealthCache) (pre_init_health : ℚ) : Except MangoError Unit :=
  if pre_init_health ≤ hc.health .init then .ok ()
  else .error .healthMustBePositiveOrIncrease

/-- The require! macro: succeed exactly when the condition holds. -/
def requireE (p : Prop) [Decidable p] (e : MangoError) : Except MangoError Unit :=
  if p then .ok () else .error e

/-- Outcome of the external settlement CPI: a rejection by the external
program is a hard failure with no local state mutated. -/
def cpi_outcome (o : Option (Nat × Nat × Nat)) : Except MangoError (Nat × Nat × Nat) :=
  match o with
  | some v => .ok v
  | none => .error .cpiFailed

/-- The retriever lookup of banks_mut_and_oracles: a missing bank account
is an error. -/
def retriever_entry (r : Retriever) (i : Nat) : Except MangoError RetrieverEntry :=
  match lookup_bank r i with
  | some e => .ok e
  | none => .error .someError

/-- The source unwraps the cache entry; a missing entry is a panic, which
aborts the transaction. -/
def token_info_or_abort (hc : HealthCache) (i : Nat) : Except MangoError TokenInfo :=
  match hc.token_info i with
  | some ti => .ok ti
  | none => .error .mathError

/-- Re-borrow of a position by raw index; an out-of-range index is a
panic, which aborts the transaction. -/
def position_at (l : List TokenPosition) (r : Nat) : Except MangoError TokenPosition :=
  match l[r]? with
  | some p => .ok p
  | none => .error .mathError

/-- Checked u64 subtraction: the source builds with overflow checks, so an
underflow aborts the transaction. -/
def checked_sub (a b : Nat) : Except MangoError Nat :=
  if b ≤ a then .ok (a - b) else .error .mathError

/-- Checked fixed-point division: I80F48 division by zero aborts. -/
def checked_div (a b : ℚ) : Except MangoError ℚ :=
  if b = 0 then .error .mathError else .ok (a / b)

/-- The state account of the external staking-options program that the
exercise instruction reads: its address and the lot size (base atoms paid
out per option). -/
structure StakingOptionsState where
  key : Nat
  lot_size : Nat
deriving DecidableEq, Repr

/-- The accounts presented to staking_options_exercise, together with the
observable behaviour of the untrusted external settlement call: none
models the CPI being rejected, some gives the three vault custody balances
observed after the call. -/
structure ExerciseAccounts where
  account : Account
  base_bank : Bank
  quote_bank : Bank
  option_bank : Bank
  base_vault : Nat
  quote_vault : Nat
  option_vault : Nat
  staking_options_state : StakingOptionsState
  base_vault_amount : Nat
  quote_vault_amount : Nat
  option_vault_amount : Nat
  remaining_accounts : Retriever
  cpi_result : Option (Nat × Nat × Nat)
deriving DecidableEq, Repr

/-- Post-state of a successful exercise: the mutated account, plus the
captured pre-Init health and the adjusted post-Init health (none when the
account is in a health region and the checks are skipped). -/
structure ExerciseResult where
  account : Account
  pre_init_health : Option ℚ
  post_init_health : Option ℚ
deriving DecidableEq, Repr

/-- Lines 20-29 of staking_options_exercise.rs: unless the account is in a
health region, build the health cache and capture the pre Init health. -/
def exercise_pre_health (ctx : ExerciseAccounts) :
    Except MangoError (Option (HealthCache × ℚ)) :=
  if !ctx.account.is_in_health_region then do
    let health_cache ← new_health_cache ctx.account ctx.remaining_accounts
    pure (some (health_cache, check_health_pre health_cache))
  else pure none

/-- Lines 38-49 of staking_options_exercise.rs: sanity checks of the
presented staking-options state and of the three vault accounts against
the banks. -/
def exercise_key_checks (ctx : ExerciseAccounts) : Except MangoError Unit := do
  requireE (ctx.option_bank.staking_options_state ≠ 0) .requireViolation
  requireE (ctx.option_bank.staking_options_state = ctx.staking_options_state.key)
    .requireViolation
  requireE (ctx.base_vault = ctx.base_bank.vault) .requireViolation
  requireE (ctx.option_vault = ctx.option_bank.vault) .requireViolation
  requireE (ctx.quote_vault = ctx.quote_bank.vault) .requireViolation

/-- Lines 86-108 of staking_options_exercise.rs: compare the vault custody
balances after the external call with the recorded before-balances; any
deviation from the exact expected deltas aborts with
StakingOptionsError (a u64 underflow aborts as well). -/
def exercise_settlement_checks (ctx : ExerciseAccounts) (amount strike : Nat)
    (after : Nat × Nat × Nat) : Except MangoError Unit := do
  let base_delta ← checked_sub after.1 ctx.base_vault_amount
  requireE (base_delta = amount * ctx.staking_options_state.lot_size) .stakingOptionsError
  let quote_delta ← checked_sub ctx.quote_vault_amount after.2.1
  requireE (quote_delta = amount * strike) .stakingOptionsError
  let option_delta ← checked_sub ctx.option_vault_amount after.2.2
  requireE (option_delta = amount) .stakingOptionsError

/-- Lines 110-146 of staking_options_exercise.rs: deposit the received
base tokens, withdraw the quote cost (fee-bearing) and the exercised
options (fee-free, with dusting), deactivating emptied positions. -/
def exercise_apply_positions (ctx : ExerciseAccounts) (amount strike : Nat) :
    Except MangoError Account := do
  let account := ctx.account
  let bp ← account.token_position_and_raw_index ctx.base_bank.token_index
  let base_update := ctx.base_bank.deposit bp.1
      ((amount * ctx.staking_options_state.lot_size : Nat) : ℚ)
  let account1 := account.set_position bp.2 base_update.1
  let qp ← account1.token_position_and_raw_index ctx.quote_bank.token_index
  requireE (qp.1.is_active = true) .someError
  let quote_update := ctx.quote_bank.withdraw_with_fee qp.1 ((amount * strike : Nat) : ℚ)
  let account2 := account1.set_position qp.2 quote_update.1
  let account3 :=
    if !quote_update.2.1 then account2.deactivate_token_position_and_log qp.2 else account2
  let op ← account3.token_position_and_raw_index ctx.option_bank.token_index
  requireE (op.1.is_active = true) .someError
  let option_update := ctx.option_bank.withdraw_without_fee_with_dusting op.1
      ((amount : Nat) : ℚ)
  let account4 := account3.set_position op.2 option_update.1
  let account5 :=
    if !option_update.2 then account4.deactivate_token_position_and_log op.2 else account4
  pure account5

/-- Lines 148-160 of staking_options_exercise.rs: adjust the captured
health cache by exactly the three deltas and run the post health check
against the captured pre value; returns the post Init health. -/
def exercise_post_health (ctx : ExerciseAccounts) (amount strike : Nat)
    (hp : HealthCache × ℚ) : Except MangoError ℚ := do
  let hc1 ← hp.1.adjust_token_balance ctx.base_bank
      ((amount * ctx.staking_options_state.lot_size : Nat) : ℚ)
  let hc2 ← hc1.adjust_token_balance ctx.quote_bank (-((amount * strike : Nat) : ℚ))
  let hc3 ← hc2.adjust_token_balance ctx.option_bank (-((amount : Nat) : ℚ))
  check_health_post hc3 hp.2
  pure (hc3.health .init)

/-- Translation of staking_options_exercise
(src/programs/mango-v4/src/instructions/staking_options_exercise.rs),
composed of the stages above in exact source order. Amount is in native
option tokens. The log emission of lines 162-192 is out of scope. -/
def staking_options_exercise (ctx : ExerciseAccounts) (amount strike : Nat) :
    Except MangoError ExerciseResult := do
  let pre_health_opt ← exercise_pre_health ctx
  exercise_key_checks ctx
  let after ← cpi_outcome ctx.cpi_result
  exercise_settlement_checks ctx amount strike after
  let account5 ← exercise_apply_positions ctx amount strike
  match pre_health_opt with
  | some hp => do
    let post ← exercise_post_health ctx amount strike hp
    pure { account := account5, pre_init_health := some hp.2,
           post_init_health := some post }
  | none =>
    pure { account := account5, pre_init_health := none, post_init_health := none }


/-- The accounts presented to staking_options_liq. -/
structure LiqAccounts where
  liqor : Account
  liqor_key : Nat
  liqor_owner : Nat
  liqee : Account
  liqee_key : Nat
  remaining_accounts : Retriever
deriving DecidableEq, Repr

/-- Post-state of a successful liquidation action, exposing the executed
transfer sizes and the native balances the source reads along the way. -/
structure LiqResult where
  liqor : Account
  liqee : Account
  liqee_health_cache : HealthCache
  liqee_liq_end_health : ℚ
  liab_transfer : ℚ
  asset_transfer : ℚ
  liqee_asset_native : ℚ
  liqee_liab_native : ℚ
  liqee_liab_native_after : ℚ
  liqee_assets_native_after : ℚ
deriving DecidableEq, Repr

/-- Translation of liquidation_action
(src/programs/mango-v4/src/instructions/staking_options_liq.rs).
The account keys only feed the emitted logs in the source and are omitted;
the unused init_asset_weight local of the source is likewise omitted. -/
def liquidation_action (account_retriever : Retriever)
    (liab_token_index asset_token_index : Nat)
    (liqor liqee : Account)
    (liqee_health_cache : HealthCache) (liqee_liq_end_health : ℚ)
    (now_ts : Nat) (max_liab_transfer : ℚ) :
    Except MangoError LiqResult := do
  let ae ← retriever_entry account_retriever asset_token_index
  let le ← retriever_entry account_retriever liab_token_index
  let asset_bank := ae.bank
  let asset_oracle_price := ae.prices.oracle
  let liab_bank := le.bank
  let liab_oracle_price := le.prices.oracle
  requireE (0 < asset_bank.staking_options_expiration) .stakingOptionsError
  let time_remaining ← checked_sub asset_bank.staking_options_expiration now_ts
  requireE (time_remaining < 60 * 60) .stakingOptionsError
  let ap ← liqee.token_position_and_raw_index asset_token_index
  let liqee_asset_raw_index := ap.2
  let liqee_asset_native := ap.1.native asset_bank
  requireE (0 < liqee_asset_native) .someError
  let lp ← liqee.token_position_and_raw_index liab_token_index
  let liqee_liab_raw_index := lp.2
  let liqee_liab_native := lp.1.native liab_bank
  requireE (liqee_liab_native < 0) .someError
  let fee_factor := 1 + liab_bank.liquidation_fee
  let liab_oracle_price_adjusted := liab_oracle_price * fee_factor
  let init_liab_weight := liab_bank.init_liab_weight
  let tl ← token_info_or_abort liqee_health_cache liab_token_index
  let liab_liq_end_price := tl.prices.liab .init
  let ta ← token_info_or_abort liqee_health_cache asset_token_index
  let _asset_liq_end_price := ta.prices.asset .init
  let liab_needed ← checked_div (-liqee_liq_end_health) (liab_liq_end_price * init_liab_weight)
  let liab_possible ← checked_div (liqee_asset_native * asset_oracle_price)
      liab_oracle_price_adjusted
  let liab_transfer :=
    min (min (min liab_needed (-liqee_liab_native)) liab_possible) max_liab_transfer
  let asset_transfer ← checked_div (liab_transfer * liab_oracle_price_adjusted)
      asset_oracle_price
  let liqee_liab_update := liab_bank.deposit_with_dusting lp.1 liab_transfer
  let liqee_liab_active := liqee_liab_update.2
  let liqee1 := liqee.set_position liqee_liab_raw_index liqee_liab_update.1
  let liqor_ensure_liab := liqor.ensure_token_position liab_token_index
  let liqor1 := liqor_ensure_liab.1
  let liqor_liab_raw_index := liqor_ensure_liab.2.2
  let liqor_liab_update := liab_bank.withdraw_with_fee liqor_ensure_liab.2.1 liab_transfer
  let liqor_liab_active := liqor_liab_update.2.1
  let liqor2 := liqor1.set_position liqor_liab_raw_index liqor_liab_update.1
  let liqee_liab_native_after := liqee_liab_update.1.native liab_bank
  let liqor_ensure_asset := liqor2.ensure_token_position asset_token_index
  let liqor3 := liqor_ensure_asset.1
  let liqor_asset_raw_index := liqor_ensure_asset.2.2
  let liqor_asset_update := asset_bank.deposit liqor_ensure_asset.2.1 asset_transfer
  let liqor_asset_active := liqor_asset_update.2
  let liqor4 := liqor3.set_position liqor_asset_raw_index liqor_asset_update.1
  let cur_asset ← position_at liqee1.tokens liqee_asset_raw_index
  let liqee_asset_update := asset_bank.withdraw_without_fee_with_dusting cur_asset asset_transfer
  let liqee_asset_active := liqee_asset_update.2
  let liqee2 := liqee1.set_position liqee_asset_raw_index liqee_asset_update.1
  let liqee_assets_native_after := liqee_asset_update.1.native asset_bank
  let hc1 ← liqee_health_cache.adjust_token_balance liab_bank
      (liqee_liab_native_after - liqee_liab_native)
  let hc2 ← hc1.adjust_token_balance asset_bank
      (liqee_assets_native_after - liqee_asset_native)
  let liqee3 :=
    if !liqee_asset_active then liqee2.deactivate_token_position_and_log liqee_asset_raw_index
    else liqee2
  let liqee4 :=
    if !liqee_liab_active then liqee3.deactivate_token_position_and_log liqee_liab_raw_index
    else liqee3
  let liqor5 :=
    if !liqor_asset_active then liqor4.deactivate_token_position_and_log liqor_asset_raw_index
    else liqor4
  let liqor6 :=
    if !liqor_liab_active then liqor5.deactivate_token_position_and_log liqor_liab_raw_index
    else liqor5
  pure { liqor := liqor6, liqee := liqee4, liqee_health_cache := hc2,
         liqee_liq_end_health := liqee_liq_end_health,
         liab_transfer := liab_transfer, asset_transfer := asset_transfer,
         liqee_asset_native := liqee_asset_native,
         liqee_liab_native := liqee_liab_native,
         liqee_liab_native_after := liqee_liab_native_after,
         liqee_assets_native_after := liqee_assets_native_after }

/-- Translation of staking_options_liq
(src/programs/mango-v4/src/instructions/staking_options_liq.rs): the
precondition requires, the pre-action liqee Init health capture, the
liquidation action, and the liqor post-health check unless the liqor is in
a health region. -/
def staking_options_liq (ctx : LiqAccounts)
    (asset_token_index liab_token_index : Nat) (max_liab_transfer : ℚ)
    (now_ts : Nat) : Except MangoError LiqResult := do
  requireE (asset_token_index ≠ liab_token_index) .someError
  requireE (ctx.liqor_key ≠ ctx.liqee_key) .requireViolation
  requireE (ctx.liqor.is_owner_or_delegate ctx.liqor_owner = true) .someError
  let liqee_health_cache ← new_health_cache ctx.liqee ctx.remaining_accounts
  let liqee_liq_end_health := liqee_health_cache.health .init
  let r ← liquidation_action ctx.remaining_accounts liab_token_index asset_token_index
      ctx.liqor ctx.liqee liqee_health_cache liqee_liq_end_health now_ts max_liab_transfer
  if !r.liqor.is_in_health_region then do
    let liqor_health ← compute_health r.liqor .init ctx.remaining_accounts
    requireE (0 ≤ liqor_health) .healthMustBePositive
    pure r
  else pure r

/-- Oracle configuration of a perp market; only carried, never read here. -/
structure OracleConfig where
  conf_filter : ℚ
deriving DecidableEq, Repr

/-- The full perp market state, with every field of the source account
(src state PerpMarket), so that the frame effect of perp_edit_market is
expressible. f32 arguments arrive as exact rationals; keys are Nat. -/
structure PerpMarket where
  name : Nat
  group : Nat
  oracle : Nat
  oracle_config : OracleConfig
  bids : Nat
  asks : Nat
  event_queue : Nat
  quote_lot_size : Int
  base_lot_size : Int
  maint_asset_weight : ℚ
  init_asset_weight : ℚ
  maint_liab_weight : ℚ
  init_liab_weight : ℚ
  liquidation_fee : ℚ
  maker_fee : ℚ
  taker_fee : ℚ
  min_funding : ℚ
  max_funding : ℚ
  impact_quantity : Int
  long_funding : ℚ
  short_funding : ℚ
  funding_last_updated : Int
  open_interest : Int
  seq_num : Nat
  fees_accrued : ℚ
  bump : Nat
  base_token_decimals : Nat
  perp_market_index : Nat
  base_token_index : Nat
  quote_token_index : Nat

/-- Translation of perp_edit_market
(src/programs/mango-v4/src/instructions/perp_edit_market.rs): each field
with a some argument is overwritten with the supplied value, every other
field is kept; the source's sequence of `if let Some` assignments on
pairwise distinct fields is exactly this simultaneous update. -/
def perp_edit_market (pm : PerpMarket)
    (oracle_opt : Option Nat)
    (oracle_config_opt : Option OracleConfig)
    (base_token_index_opt : Option Nat)
    (base_token_decimals_opt : Option Nat)
    (maint_asset_weight_opt : Option ℚ)
    (init_asset_weight_opt : Option ℚ)
    (maint_liab_weight_opt : Option ℚ)
    (init_liab_weight_opt : Option ℚ)
    (liquidation_fee_opt : Option ℚ)
    (maker_fee_opt : Option ℚ)
    (taker_fee_opt : Option ℚ)
    (min_funding_opt : Option ℚ)
    (max_funding_opt : Option ℚ)
    (impact_quantity_opt : Option Int) : PerpMarket :=
  { pm with
    oracle := oracle_opt.getD pm.oracle
    oracle_config := oracle_config_opt.getD pm.oracle_config
    maint_asset_weight := maint_asset_weight_opt.getD pm.maint_asset_weight
    init_asset_weight := init_asset_weight_opt.getD pm.init_asset_weight
    maint_liab_weight := maint_liab_weight_opt.getD pm.maint_liab_weight
    init_liab_weight := init_liab_weight_opt.getD pm.init_liab_weight
    liquidation_fee := liquidation_fee_opt.getD pm.liquidation_fee
    maker_fee := maker_fee_opt.getD pm.maker_fee
    taker_fee := taker_fee_opt.getD pm.taker_fee
    min_funding := min_funding_opt.getD pm.min_funding
    max_funding := max_funding_opt.getD pm.max_funding
    impact_quantity := impact_quantity_opt.getD pm.impact_quantity
    base_token_decimals := base_token_decimals_opt.getD pm.base_token_decimals
    base_token_index := base_token_index_opt.getD pm.base_token_index }

/-! ### Generic inversion lemmas for the Except pipelines -/

theorem except_bind_ok {α β : Type} {x : Except MangoError α}
    {f : α → Except MangoError β} {r : β} :
    x >>= f = Except.ok r ↔ ∃ a, x = Except.ok a ∧ f a = Except.ok r := by
  cases x with
  | error e => simp [Bind.bind, Except.bind]
  | ok a => simp [Bind.bind, Except.bind]

theorem except_pure_ok {α : Type} {a r : α} :
    (pure a : Except MangoError α) = Except.ok r ↔ a = r := by
  simp [pure, Except.pure]

theorem except_bind_ok_eq {α β : Type} {x : Except MangoError α} {a : α}
    (hx : x = Except.ok a) (f : α → Except MangoError β) : x >>= f = f a := by
  rw [hx]; rfl

theorem except_bind_error {α β : Type} {e : MangoError}
    (f : α → Except MangoError β) :
    (Except.error e : Except MangoError α) >>= f = Except.error e := rfl

theorem requireE_ok {p : Prop} [Decidable p] {e : MangoError} {u : Unit} :
    requireE p e = Except.ok u ↔ p := by
  by_cases hp : p <;> simp [requireE, hp]

theorem requireE_true {p : Prop} [Decidable p] {e : MangoError} (hp : p) :
    requireE p e = Except.ok () := by
  simp [requireE, hp]

theorem checked_sub_ok {a b c : Nat} :
    checked_sub a b = Except.ok c ↔ b ≤ a ∧ a - b = c := by
  by_cases h : b ≤ a <;> simp [checked_sub, h]

theorem checked_div_ok {a b q : ℚ} :
    checked_div a b = Except.ok q ↔ b ≠ 0 ∧ a / b = q := by
  by_cases h : b = 0 <;> simp [checked_div, h]

theorem cpi_outcome_ok {o : Option (Nat × Nat × Nat)} {v : Nat × Nat × Nat} :
    cpi_outcome o = Except.ok v ↔ o = some v := by
  cases o <;> simp [cpi_outcome]

theorem retriever_entry_ok {r : Retriever} {i : Nat} {e : RetrieverEntry} :
    retriever_entry r i = Except.ok e ↔ lookup_bank r i = some e := by
  cases h : lookup_bank r i <;> simp [retriever_entry, h]

theorem token_info_or_abort_ok {hc : HealthCache} {i : Nat} {ti : TokenInfo} :
    token_info_or_abort hc i = Except.ok ti ↔ hc.token_info i = some ti := by
  cases h : hc.token_info i <;> simp [token_info_or_abort, h]

theorem position_at_ok {l : List TokenPosition} {r : Nat} {p : TokenPosition} :
    position_at l r = Except.ok p ↔ l[r]? = some p := by
  cases h : l[r]? <;> simp [position_at, h]

theorem token_position_ok {a : Account} {i : Nat} {pr : TokenPosition × Nat} :
    a.token_position_and_raw_index i = Except.ok pr ↔
      find_token_position a.tokens i = some pr := by
  unfold Account.token_position_and_raw_index
  cases hf : find_token_position a.tokens i <;> simp

theorem find_token_position_active {l : List TokenPosition} {i : Nat}
    {pr : TokenPosition × Nat} (h : find_token_position l i = some pr) :
    pr.1.is_active = true ∧ pr.1.token_index = i ∧ l[pr.2]? = some pr.1 := by
  induction l generalizing pr with
  | nil => exact absurd h (by simp [find_token_position])
  | cons p ps ih =>
    rw [find_token_position] at h
    by_cases hp : p.is_active_for_token i
    · rw [if_pos hp] at h
      obtain rfl : (p, 0) = pr := Option.some.inj h
      have hx := hp
      simp only [TokenPosition.is_active_for_token, Bool.and_eq_true, beq_iff_eq] at hx
      exact ⟨by simpa [TokenPosition.is_active] using hx.1, hx.2, by simp⟩
    · rw [if_neg hp] at h
      cases hf : find_token_position ps i with
      | none => rw [hf] at h; exact absurd h (by simp)
      | some q =>
        rw [hf] at h
        simp only [Option.map_some'] at h
        obtain rfl : (q.1, q.2 + 1) = pr := Option.some.inj h
        obtain ⟨h1, h2, h3⟩ := ih hf
        exact ⟨h1, h2, by simpa using h3⟩

theorem check_health_post_ok {hc : HealthCache} {pre : ℚ} {u : Unit} :
    check_health_post hc pre = Except.ok u ↔ pre ≤ hc.health .init := by
  by_cases hle : pre ≤ hc.health .init <;> simp [check_health_post, hle]

theorem exercise_key_checks_ok {ctx : ExerciseAccounts} {u : Unit} :
    exercise_key_checks ctx = Except.ok u ↔
      ctx.option_bank.staking_options_state ≠ 0 ∧
      ctx.option_bank.staking_options_state = ctx.staking_options_state.key ∧
      ctx.base_vault = ctx.base_bank.vault ∧
      ctx.option_vault = ctx.option_bank.vault ∧
      ctx.quote_vault = ctx.quote_bank.vault := by
  simp [exercise_key_checks, except_bind_ok, requireE_ok]

/-- The three settlement checks succeed only when the observed vault
balances satisfy the three exact delta equations. -/
theorem exercise_settlement_checks_ok {ctx : ExerciseAccounts} {amount strike : Nat}
    {after : Nat × Nat × Nat} {u : Unit}
    (h : exercise_settlement_checks ctx amount strike after = Except.ok u) :
      after.1 = ctx.base_vault_amount + amount * ctx.staking_options_state.lot_size ∧
      ctx.quote_vault_amount = after.2.1 + amount * strike ∧
      ctx.option_vault_amount = after.2.2 + amount := by
  simp only [exercise_settlement_checks, except_bind_ok, checked_sub_ok, requireE_ok] at h
  obtain ⟨bd, ⟨h1, h2⟩, u1, h3, qd, ⟨h4, h5⟩, u2, h6, od, ⟨h7, h8⟩, u3, h9⟩ := h
  omega

theorem exercise_pre_health_not_region {ctx : ExerciseAccounts}
    (hihr : ctx.account.in_health_region = false) {pre : Option (HealthCache × ℚ)} :
    exercise_pre_health ctx = Except.ok pre ↔
      ∃ hc, new_health_cache ctx.account ctx.remaining_accounts = Except.ok hc ∧
        pre = some (hc, hc.health .init) := by
  simp only [exercise_pre_health, Account.is_in_health_region, hihr, Bool.not_false,
    if_true, check_health_pre, except_bind_ok, except_pure_ok]
  constructor
  · rintro ⟨hc, hhc, hpre⟩
    exact ⟨hc, hhc, hpre.symm⟩
  · rintro ⟨hc, hhc, hpre⟩
    exact ⟨hc, hhc, hpre.symm⟩

theorem exercise_pre_health_region {ctx : ExerciseAccounts}
    (hihr : ctx.account.in_health_region = true) {pre : Option (HealthCache × ℚ)} :
    exercise_pre_health ctx = Except.ok pre ↔ pre = none := by
  simp only [exercise_pre_health, Account.is_in_health_region, hihr, Bool.not_true,
    Bool.false_eq_true, if_false, except_pure_ok]
  exact ⟨fun h => h.symm, fun h => h.symm⟩

theorem exercise_apply_positions_ok {ctx : ExerciseAccounts} {amount strike : Nat}
    {acct : Account} :
    exercise_apply_positions ctx amount strike = Except.ok acct ↔
      ∃ bp qp op,
        find_token_position ctx.account.tokens ctx.base_bank.token_index = some bp ∧
        (let account1 := ctx.account.set_position bp.2
            (ctx.base_bank.deposit bp.1
              ((amount * ctx.staking_options_state.lot_size : Nat) : ℚ)).1
         let quote_update := ctx.quote_bank.withdraw_with_fee qp.1
            ((amount * strike : Nat) : ℚ)
         let account2 := account1.set_position qp.2 quote_update.1
         let account3 := if !quote_update.2.1
            then account2.deactivate_token_position_and_log qp.2 else account2
         let option_update := ctx.option_bank.withdraw_without_fee_with_dusting op.1
            ((amount : Nat) : ℚ)
         let account4 := account3.set_position op.2 option_update.1
         let account5 := if !option_update.2
            then account4.deactivate_token_position_and_log op.2 else account4
         find_token_position account1.tokens ctx.quote_bank.token_index = some qp ∧
         find_token_position account3.tokens ctx.option_bank.token_index = some op ∧
         acct = account5) := by
  simp only [exercise_apply_positions, except_bind_ok, except_pure_ok, requireE_ok,
    token_position_ok]
  constructor
  · rintro ⟨bp, hbp, qp, hqp, u1, h1, op, hop, u2, h2, hacct⟩
    exact ⟨bp, qp, op, hbp, hqp, hop, hacct.symm⟩
  · rintro ⟨bp, qp, op, hbp, hqp, hop, hacct⟩
    refine ⟨bp, hbp, qp, hqp, ⟨⟩, ?_, op, hop, ⟨⟩, ?_, hacct.symm⟩
    · have := find_token_position_active hqp
      exact this.1
    · have := find_token_position_active hop
      exact this.1

theorem exercise_post_health_ok {ctx : ExerciseAccounts} {amount strike : Nat}
    {hp : HealthCache × ℚ} {post : ℚ} :
    exercise_post_health ctx amount strike hp = Except.ok post ↔
      ∃ hc1 hc2 hc3,
        hp.1.adjust_token_balance ctx.base_bank
          ((amount * ctx.staking_options_state.lot_size : Nat) : ℚ) = Except.ok hc1 ∧
        hc1.adjust_token_balance ctx.quote_bank
          (-((amount * strike : Nat) : ℚ)) = Except.ok hc2 ∧
        hc2.adjust_token_balance ctx.option_bank
          (-((amount : Nat) : ℚ)) = Except.ok hc3 ∧
        hp.2 ≤ hc3.health .init ∧ post = hc3.health .init := by
  simp only [exercise_post_health, except_bind_ok, except_pure_ok, check_health_post_ok]
  constructor
  · rintro ⟨hc1, h1, hc2, h2, hc3, h3, u, hle, hpost⟩
    exact ⟨hc1, hc2, hc3, h1, h2, h3, hle, hpost.symm⟩
  · rintro ⟨hc1, hc2, hc3, h1, h2, h3, hle, hpost⟩
    exact ⟨hc1, h1, hc2, h2, hc3, h3, ⟨⟩, hle, hpost.symm⟩

/-- Inversion of a successful exercise into its stages. -/
theorem staking_options_exercise_ok_elim
    {ctx : ExerciseAccounts} {amount strike : Nat} {r : ExerciseResult}
    (h : staking_options_exercise ctx amount strike = Except.ok r) :
    ∃ pre after account5,
      exercise_pre_health ctx = Except.ok pre ∧
      exercise_key_checks ctx = Except.ok () ∧
      ctx.cpi_result = some after ∧
      exercise_settlement_checks ctx amount strike after = Except.ok () ∧
      exercise_apply_positions ctx amount strike = Except.ok account5 ∧
      ((pre = none ∧
        r = { account := account5, pre_init_health := none, post_init_health := none }) ∨
       (∃ hp post, pre = some hp ∧
        exercise_post_health ctx amount strike hp = Except.ok post ∧
        r = { account := account5, pre_init_health := some hp.2,
              post_init_health := some post })) := by
  simp only [staking_options_exercise, except_bind_ok, except_pure_ok, cpi_outcome_ok] at h
  obtain ⟨pre, hpre, u1, hkeys, after, hcpi, u2, hchecks, account5, happ, h⟩ := h
  cases u1
  cases u2
  refine ⟨pre, after, account5, hpre, hkeys, hcpi, hchecks, happ, ?_⟩
  cases pre with
  | none =>
    simp only [except_pure_ok] at h
    exact Or.inl ⟨rfl, h.symm⟩
  | some hp =>
    simp only [except_bind_ok, except_pure_ok] at h
    obtain ⟨post, hpost, h⟩ := h
    exact Or.inr ⟨hp, post, rfl, hpost, h.symm⟩

/-- Positions found for distinct token indices sit in distinct slots. -/
theorem find_token_position_ne {l : List TokenPosition} {i j : Nat}
    {pr qr : TokenPosition × Nat} (hi : find_token_position l i = some pr)
    (hj : find_token_position l j = some qr) (hne : i ≠ j) : pr.2 ≠ qr.2 := by
  intro heq
  obtain ⟨-, hpi, hpl⟩ := find_token_position_active hi
  obtain ⟨-, hqi, hql⟩ := find_token_position_active hj
  rw [heq, hql] at hpl
  have : qr.1 = pr.1 := Option.some.inj hpl
  rw [← this, hqi] at hpi
  exact hne hpi.symm

/-- Full inversion of a successful liquidation action: eligibility window,
sign preconditions, the sizing formula from the cache prices, the applied
balances and the incremental cache update. -/
theorem liquidation_action_ok_elim {account_retriever : Retriever}
    {liab_token_index asset_token_index : Nat} {liqor liqee : Account}
    {liqee_health_cache : HealthCache} {liqee_liq_end_health : ℚ}
    {now_ts : Nat} {max_liab_transfer : ℚ} {r : LiqResult}
    (hne : asset_token_index ≠ liab_token_index)
    (h : liquidation_action account_retriever liab_token_index asset_token_index
      liqor liqee liqee_health_cache liqee_liq_end_health now_ts max_liab_transfer
      = Except.ok r) :
    ∃ ae le ap lp tl ta hc1 hc2,
      lookup_bank account_retriever asset_token_index = some ae ∧
      lookup_bank account_retriever liab_token_index = some le ∧
      0 < ae.bank.staking_options_expiration ∧
      now_ts ≤ ae.bank.staking_options_expiration ∧
      ae.bank.staking_options_expiration - now_ts < 3600 ∧
      find_token_position liqee.tokens asset_token_index = some ap ∧
      0 < ap.1.native ae.bank ∧
      find_token_position liqee.tokens liab_token_index = some lp ∧
      lp.1.native le.bank < 0 ∧
      liqee_health_cache.token_info liab_token_index = some tl ∧
      liqee_health_cache.token_info asset_token_index = some ta ∧
      tl.prices.liab .init * le.bank.init_liab_weight ≠ 0 ∧
      le.prices.oracle * (1 + le.bank.liquidation_fee) ≠ 0 ∧
      ae.prices.oracle ≠ 0 ∧
      r.liqee_liq_end_health = liqee_liq_end_health ∧
      r.liqee_asset_native = ap.1.native ae.bank ∧
      r.liqee_liab_native = lp.1.native le.bank ∧
      r.liab_transfer =
        min (min (min (-liqee_liq_end_health /
              (tl.prices.liab .init * le.bank.init_liab_weight))
            (-(lp.1.native le.bank)))
          (ap.1.native ae.bank * ae.prices.oracle /
            (le.prices.oracle * (1 + le.bank.liquidation_fee))))
          max_liab_transfer ∧
      r.asset_transfer = r.liab_transfer *
        (le.prices.oracle * (1 + le.bank.liquidation_fee)) / ae.prices.oracle ∧
      r.liqee_liab_native_after = dusted (lp.1.native le.bank + r.liab_transfer) ∧
      r.liqee_assets_native_after = dusted (ap.1.native ae.bank - r.asset_transfer) ∧
      liqee_health_cache.adjust_token_balance le.bank
        (r.liqee_liab_native_after - r.liqee_liab_native) = Except.ok hc1 ∧
      hc1.adjust_token_balance ae.bank
        (r.liqee_assets_native_after - r.liqee_asset_native) = Except.ok hc2 ∧
      r.liqee_health_cache = hc2 := by
  simp only [liquidation_action, except_bind_ok, except_pure_ok, requireE_ok,
    checked_sub_ok, checked_div_ok, retriever_entry_ok, token_position_ok,
    token_info_or_abort_ok, position_at_ok] at h
  obtain ⟨ae, hae, le, hle, u1, h1, tr, ⟨htr1, htr2⟩, u2, h2, ap, hap, u3, h3,
    lp, hlp, u4, h4, tl, htl, ta, hta, ln, ⟨hln0, hln⟩, lpos, ⟨hlpos0, hlpos⟩,
    atr, ⟨hat0, hat⟩, ca, hca, hc1, hhc1, hc2, hhc2, hr⟩ := h
  have hslots : ap.2 ≠ lp.2 := find_token_position_ne hap hlp hne
  have hca2 : ca = ap.1 := by
    obtain ⟨-, -, hpl⟩ := find_token_position_active hap
    rw [Account.set_position] at hca
    simp only [List.getElem?_set_ne (Ne.symm hslots)] at hca
    rw [hpl] at hca
    exact (Option.some.inj hca).symm
  subst hca2
  subst hr
  refine ⟨ae, le, ap, lp, tl, ta, hc1, hc2, hae, hle, h1, htr1, by omega,
    hap, h3, hlp, h4, htl, hta, hln0, hlpos0, hat0, rfl, rfl, rfl, ?_, ?_, ?_, ?_, ?_, ?_, rfl⟩
  · simp only [← hln, ← hlpos]
  · simp only [← hat, ← hln, ← hlpos]
  · simp only [Bank.deposit_with_dusting, TokenPosition.native, ← hln, ← hlpos]
  · simp only [Bank.withdraw_without_fee_with_dusting, TokenPosition.native,
      ← hat, ← hln, ← hlpos]
  · simp only [Bank.deposit_with_dusting, TokenPosition.native] at hhc1 ⊢
    exact hhc1
  · simp only [Bank.deposit_with_dusting, Bank.withdraw_without_fee_with_dusting,
      TokenPosition.native] at hhc2 ⊢
    exact hhc2

/-- Inversion of a successful staking_options_liq call into its
preconditions, health-cache capture, action and liqor post-check. -/
theorem staking_options_liq_ok_elim {ctx : LiqAccounts} {ai li : Nat}
    {maxl : ℚ} {now : Nat} {r : LiqResult}
    (h : staking_options_liq ctx ai li maxl now = Except.ok r) :
    ai ≠ li ∧ ctx.liqor_key ≠ ctx.liqee_key ∧
    ctx.liqor.is_owner_or_delegate ctx.liqor_owner = true ∧
    ∃ hc, new_health_cache ctx.liqee ctx.remaining_accounts = Except.ok hc ∧
      liquidation_action ctx.remaining_accounts li ai ctx.liqor ctx.liqee hc
        (hc.health .init) now maxl = Except.ok r ∧
      (r.liqor.in_health_region = false →
        ∃ q, compute_health r.liqor .init ctx.remaining_accounts = Except.ok q ∧
          0 ≤ q) := by
  simp only [staking_options_liq, except_bind_ok, except_pure_ok, requireE_ok] at h
  obtain ⟨u1, h1, u2, h2, u3, h3, hc, hhc, rr, hrr, htail⟩ := h
  cases hreg : rr.liqor.in_health_region with
  | true =>
    simp only [Account.is_in_health_region, hreg, Bool.not_true, Bool.false_eq_true,
      if_false, except_pure_ok] at htail
    subst htail
    exact ⟨h1, h2, h3, hc, hhc, hrr, fun hcon => absurd (hreg ▸ hcon) (by simp)⟩
  | false =>
    simp only [Account.is_in_health_region, hreg, Bool.not_false, if_true,
      except_bind_ok, except_pure_ok, requireE_ok] at htail
    obtain ⟨q, hq, u4, hq0, htail⟩ := htail
    subst htail
    exact ⟨h1, h2, h3, hc, hhc, hrr, fun _ => ⟨q, hq, hq0⟩⟩

/-- Forward composition: with all preconditions satisfied and a liqor that
is flagged in a health region, the wrapper commits the action result with
no liqor health check. -/
theorem staking_options_liq_of_region {ctx : LiqAccounts} {ai li : Nat}
    {maxl : ℚ} {now : Nat} {r : LiqResult} {hc : HealthCache}
    (h1 : ai ≠ li) (h2 : ctx.liqor_key ≠ ctx.liqee_key)
    (h3 : ctx.liqor.is_owner_or_delegate ctx.liqor_owner = true)
    (hhc : new_health_cache ctx.liqee ctx.remaining_accounts = Except.ok hc)
    (hact : liquidation_action ctx.remaining_accounts li ai ctx.liqor ctx.liqee hc
      (hc.health .init) now maxl = Except.ok r)
    (hreg : r.liqor.in_health_region = true) :
    staking_options_liq ctx ai li maxl now = Except.ok r := by
  simp only [staking_options_liq, except_bind_ok, except_pure_ok, requireE_ok]
  refine ⟨⟨⟩, h1, ⟨⟩, h2, ⟨⟩, h3, hc, hhc, r, hact, ?_⟩
  simp only [Account.is_in_health_region, hreg, Bool.not_true, Bool.false_eq_true,
    if_false, except_pure_ok]

/-- Forward composition: with all preconditions satisfied, a liqor not in a
health region whose post-action Init health is negative makes the whole
call fail with HealthMustBePositive. -/
theorem staking_options_liq_liqor_unhealthy {ctx : LiqAccounts} {ai li : Nat}
    {maxl : ℚ} {now : Nat} {r : LiqResult} {hc : HealthCache} {q : ℚ}
    (h1 : ai ≠ li) (h2 : ctx.liqor_key ≠ ctx.liqee_key)
    (h3 : ctx.liqor.is_owner_or_delegate ctx.liqor_owner = true)
    (hhc : new_health_cache ctx.liqee ctx.remaining_accounts = Except.ok hc)
    (hact : liquidation_action ctx.remaining_accounts li ai ctx.liqor ctx.liqee hc
      (hc.health .init) now maxl = Except.ok r)
    (hreg : r.liqor.in_health_region = false)
    (hq : compute_health r.liqor .init ctx.remaining_accounts = Except.ok q)
    (hq0 : q < 0) :
    staking_options_liq ctx ai li maxl now = Except.error .healthMustBePositive := by
  have hre : requireE (0 ≤ q) MangoError.healthMustBePositive
      = Except.error .healthMustBePositive := by
    simp [requireE, not_le.mpr hq0]
  simp only [staking_options_liq, except_bind_ok_eq (requireE_true h1),
    except_bind_ok_eq (requireE_true h2), except_bind_ok_eq (requireE_true h3),
    except_bind_ok_eq hhc, except_bind_ok_eq hact,
    Account.is_in_health_region, hreg, Bool.not_false, if_true,
    except_bind_ok_eq hq, hre, except_bind_error]

theorem token_info_for_ok {retr : Retriever} {p : TokenPosition} {ti : TokenInfo} :
    token_info_for retr p = Except.ok ti ↔
      ∃ e, lookup_bank retr p.token_index = some e ∧ ti = mk_token_info p e := by
  cases h : lookup_bank retr p.token_index <;> simp [token_info_for, h, eq_comm]

/-- Content of a successful snapshot: the entry found for a token index is
built from the first active position for that index and the retriever's
bank and prices. -/
theorem health_infos_token_info {ts : List TokenPosition} {retr : Retriever}
    {tis : List TokenInfo} {i : Nat} {pr : TokenPosition × Nat}
    (h : health_infos ts retr = Except.ok tis)
    (hf : find_token_position ts i = some pr) :
    ∃ e, lookup_bank retr i = some e ∧
      tis.find? (fun ti => ti.token_index == i) = some (mk_token_info pr.1 e) := by
  induction ts generalizing tis pr with
  | nil => exact absurd hf (by simp [find_token_position])
  | cons p ps ih =>
    rw [health_infos] at h
    rw [find_token_position] at hf
    by_cases hact : p.is_active = true
    · simp only [hact, if_true, except_bind_ok, except_pure_ok] at h
      obtain ⟨ti, hti, rest, hrest, htis⟩ := h
      rw [token_info_for_ok] at hti
      obtain ⟨e2, hlook, hti2⟩ := hti
      have hpa : p.active = true := by
        simpa [TokenPosition.is_active] using hact
      by_cases hmatch : p.is_active_for_token i = true
      · rw [if_pos hmatch] at hf
        obtain rfl : (p, 0) = pr := Option.some.inj hf
        have hidx : p.token_index = i := by
          simpa [TokenPosition.is_active_for_token, hpa] using hmatch
        refine ⟨e2, by rw [← hidx]; exact hlook, ?_⟩
        rw [← htis, List.find?]
        have hbeq : (ti.token_index == i) = true := by
          rw [hti2]
          simp [mk_token_info, hidx]
        rw [hbeq, hti2]
      · rw [if_neg hmatch] at hf
        cases hq : find_token_position ps i with
        | none => rw [hq] at hf; exact absurd hf (by simp)
        | some q =>
          rw [hq] at hf
          simp only [Option.map_some'] at hf
          obtain rfl : (q.1, q.2 + 1) = pr := Option.some.inj hf
          have hne : p.token_index ≠ i := by
            intro hcon
            exact hmatch (by simp [TokenPosition.is_active_for_token, hpa, hcon])
          obtain ⟨e, he1, he2⟩ := ih hrest hq
          refine ⟨e, he1, ?_⟩
          rw [← htis, List.find?]
          have hskip : (ti.token_index == i) = false := by
            rw [hti2]
            simp [mk_token_info, hne]
          rw [hskip]
          exact he2
    · have hpa : p.active = false := by
        simpa [TokenPosition.is_active] using hact
      simp only [TokenPosition.is_active, hpa, Bool.false_eq_true, if_false] at h
      have hmatch : p.is_active_for_token i = false := by
        simp [TokenPosition.is_active_for_token, hpa]
      rw [hmatch] at hf
      simp only [Bool.false_eq_true, if_false] at hf
      cases hq : find_token_position ps i with
      | none => rw [hq] at hf; exact absurd hf (by simp)
      | some q =>
        rw [hq] at hf
        simp only [Option.map_some'] at hf
        obtain rfl : (q.1, q.2 + 1) = pr := Option.some.inj hf
        obtain ⟨e, he1, he2⟩ := ih h hq
        exact ⟨e, he1, he2⟩

/-- The snapshot entry the liquidation reads for a token carries exactly
the first active position's balance and the retriever's bank and prices. -/
theorem new_health_cache_token_info {a : Account} {retr : Retriever} {hc : HealthCache}
    (h : new_health_cache a retr = Except.ok hc) {i : Nat} {pr : TokenPosition × Nat}
    (hf : find_token_position a.tokens i = some pr) :
    ∃ e, lookup_bank retr i = some e ∧
      hc.token_info i = some (mk_token_info pr.1 e) := by
  simp only [new_health_cache, except_bind_ok, except_pure_ok] at h
  obtain ⟨tis, htis, hhc⟩ := h
  obtain ⟨e, he1, he2⟩ := health_infos_token_info htis hf
  exact ⟨e, he1, by rw [← hhc]; exact he2⟩

/-- C2: for every successful staking-options liquidation the executed
liability transfer equals the minimum of liab_needed (the amount bringing
the captured Init health to zero at the cache's Init liab health price and
the bank's Init liab weight), the magnitude of the liquidatee's negative
liability balance, liab_possible (the liability obtainable for the whole
asset balance at the fee-adjusted price) and the caller's cap; the asset
side equals liab_transfer times liab oracle price times (1 + fee) over the
asset oracle price. -/
theorem liq_transfer_sizing (ctx : LiqAccounts) (ai li : Nat) (maxl : ℚ)
    (now : Nat) (r : LiqResult) (ae le : RetrieverEntry)
    (hae : lookup_bank ctx.remaining_accounts ai = some ae)
    (hle : lookup_bank ctx.remaining_accounts li = some le)
    (h : staking_options_liq ctx ai li maxl now = Except.ok r) :
    r.liab_transfer =
      min (min (min (-r.liqee_liq_end_health /
            (le.bank.init_liab_weight * le.prices.liab_init))
          (-r.liqee_liab_native))
        (r.liqee_asset_native * ae.prices.oracle /
          (le.prices.oracle * (1 + le.bank.liquidation_fee))))
        maxl ∧
    r.asset_transfer = r.liab_transfer *
      (le.prices.oracle * (1 + le.bank.liquidation_fee)) / ae.prices.oracle := by
  obtain ⟨hne, hkey, hown, hc, hhc, hact, hpost⟩ := staking_options_liq_ok_elim h
  obtain ⟨ae2, le2, ap, lp, tl, ta, hc1, hc2, hae2, hle2, hw1, hw2, hw3,
    hap, hsign1, hlp, hsign2, htl, hta, hnz1, hnz2, hnz3, hH0, hAN, hLN,
    hLT, hAT, hLA, hAA, hadj1, hadj2, hcache⟩ := liquidation_action_ok_elim hne hact
  have hA : ae = ae2 := Option.some.inj (hae.symm.trans hae2)
  have hL : le = le2 := Option.some.inj (hle.symm.trans hle2)
  obtain ⟨e, hlook, hti⟩ := new_health_cache_token_info hhc hlp
  have hE : e = le2 := Option.some.inj (hlook.symm.trans hle2)
  rw [hE] at hti
  have hTL : tl = mk_token_info lp.1 le2 := Option.some.inj (htl.symm.trans hti)
  constructor
  · rw [hA, hL, hH0, hAN, hLN, hLT, hTL]
    simp only [mk_token_info, Prices.liab]
    rw [mul_comm le2.bank.init_liab_weight le2.prices.liab_init]
  · rw [hA, hL, hAT]

/-! ### Concrete liquidation environment (the repository's liquidation
test scenario: collateral 1000, borrow 350, fee 2 percent) -/

/-- Unit prices at every strictness level. -/
def prices_one : Prices :=
  { oracle := 1, asset_init := 1, liab_init := 1, asset_maint := 1, liab_maint := 1 }

/-- Liability bank (token 0): full weights, 2 percent liquidation fee. -/
def bank_l0 : Bank :=
  { token_index := 0, init_asset_weight := 1, init_liab_weight := 1,
    maint_asset_weight := 1, maint_liab_weight := 1,
    liquidation_fee := 1/50, loan_origination_fee_rate := 0,
    staking_options_expiration := 0, staking_options_state := 0, vault := 100 }

/-- Asset bank (token 1): an expiring staking option, Init asset weight 0
as configured for expiring instruments, expiration at 1600. -/
def bank_l1 : Bank :=
  { token_index := 1, init_asset_weight := 0, init_liab_weight := 1,
    maint_asset_weight := 0, maint_liab_weight := 1,
    liquidation_fee := 0, loan_origination_fee_rate := 0,
    staking_options_expiration := 1600, staking_options_state := 7, vault := 101 }

def retr_l : Retriever :=
  [{ bank := bank_l0, prices := prices_one }, { bank := bank_l1, prices := prices_one }]

/-- Liquidatee: 1000 native expiring collateral, a 350 native borrow. -/
def liqee_l : Account :=
  { owner := 1, delegate := 0, in_health_region := false,
    tokens := [{ token_index := 1, native_balance := 1000, active := true },
               { token_index := 0, native_balance := -350, active := true }] }

/-- Liquidator: 100000 native in each token. -/
def liqor_l : Account :=
  { owner := 2, delegate := 0, in_health_region := false,
    tokens := [{ token_index := 0, native_balance := 100000, active := true },
               { token_index := 1, native_balance := 100000, active := true }] }

def ctx_l : LiqAccounts :=
  { liqor := liqor_l, liqor_key := 11, liqor_owner := 2,
    liqee := liqee_l, liqee_key := 12, remaining_accounts := retr_l }

instance : Inhabited LiqResult :=
  ⟨{ liqor := { owner := 0, delegate := 0, in_health_region := false, tokens := [] },
     liqee := { owner := 0, delegate := 0, in_health_region := false, tokens := [] },
     liqee_health_cache := { token_infos := [] },
     liqee_liq_end_health := 0, liab_transfer := 0, asset_transfer := 0,
     liqee_asset_native := 0, liqee_liab_native := 0,
     liqee_liab_native_after := 0, liqee_assets_native_after := 0 }⟩

/-- The result of the concrete liquidation run at now = 1000. -/
def r_l : LiqResult := (staking_options_liq ctx_l 1 0 1000 1000).toOption.getD default

/-- Asset bank variant with a later expiration, for window boundaries. -/
def bank_l5 : Bank := { bank_l1 with staking_options_expiration := 5200 }

def retr_l5 : Retriever :=
  [{ bank := bank_l0, prices := prices_one }, { bank := bank_l5, prices := prices_one }]

def ctx_l5 : LiqAccounts := { ctx_l with remaining_accounts := retr_l5 }

/-- A third, fully weighted token for the healthy-liquidatee scenario. -/
def bank_l2 : Bank :=
  { token_index := 2, init_asset_weight := 1, init_liab_weight := 1,
    maint_asset_weight := 1, maint_liab_weight := 1,
    liquidation_fee := 0, loan_origination_fee_rate := 0,
    staking_options_expiration := 0, staking_options_state := 0, vault := 102 }

def retr_c6 : Retriever :=
  [{ bank := bank_l0, prices := prices_one }, { bank := bank_l1, prices := prices_one },
   { bank := bank_l2, prices := prices_one }]

/-- A liquidatee whose aggregate Init health is positive (400): 1000
zero-weighted expiring collateral, a 100 borrow, 500 of a full-weight
token. -/
def liqee_c6 : Account :=
  { owner := 1, delegate := 0, in_health_region := false,
    tokens := [{ token_index := 1, native_balance := 1000, active := true },
               { token_index := 0, native_balance := -100, active := true },
               { token_index := 2, native_balance := 500, active := true }] }

def ctx_c6 : LiqAccounts :=
  { liqor := liqor_l, liqor_key := 11, liqor_owner := 2,
    liqee := liqee_c6, liqee_key := 12, remaining_accounts := retr_c6 }

def r_c6 : LiqResult := (staking_options_liq ctx_c6 1 0 1000 1000).toOption.getD default

/-- A liquidator with no positions at all; after the action it holds the
fresh borrow and the zero-weighted collateral, so its Init health is
negative. -/
def liqor_e : Account :=
  { owner := 2, delegate := 0, in_health_region := false, tokens := [] }

def ctx_l3a : LiqAccounts :=
  { liqor := liqor_e, liqor_key := 11, liqor_owner := 2,
    liqee := liqee_l, liqee_key := 12, remaining_accounts := retr_l }

/-- The same empty liquidator, but flagged as being in a health region. -/
def ctx_l3b : LiqAccounts :=
  { ctx_l3a with liqor := { liqor_e with in_health_region := true } }

instance : Inhabited HealthCache := ⟨{ token_infos := [] }⟩

def hc_l3 : HealthCache := (new_health_cache liqee_l retr_l).toOption.getD default

def r_l3a : LiqResult :=
  (liquidation_action retr_l 0 1 liqor_e liqee_l hc_l3 (hc_l3.health .init)
    1000 1000).toOption.getD default

def r_l3b : LiqResult :=
  (liquidation_action retr_l 0 1 { liqor_e with in_health_region := true } liqee_l
    hc_l3 (hc_l3.health .init) 1000 1000).toOption.getD default

def q_l3a : ℚ := (compute_health r_l3a.liqor .init retr_l).toOption.getD 0

theorem lookup_bank_token_index {r : Retriever} {i : Nat} {e : RetrieverEntry}
    (h : lookup_bank r i = some e) : e.bank.token_index = i := by
  have := List.find?_some h
  simpa using this

/-- The native balance an account holds for a token: the first active
position's balance, zero when there is none. -/
def Account.native_for (a : Account) (i : Nat) : ℚ :=
  match find_token_position a.tokens i with
  | some pr => pr.1.native_balance
  | none => 0

/-- C7: a liquidation call with equal asset and liability token indices,
or against a liquidatee whose asset balance is not strictly positive or
whose liability balance is not strictly negative, never commits; the
functional model returns an error, so no account or bank state is
observed mutated. -/
theorem liq_precondition_failures (ctx : LiqAccounts) (ai li : Nat) (maxl : ℚ)
    (now : Nat)
    (hbad : ai = li ∨ ctx.liqee.native_for ai ≤ 0 ∨ 0 ≤ ctx.liqee.native_for li) :
    (staking_options_liq ctx ai li maxl now).isOk = false := by
  cases hres : staking_options_liq ctx ai li maxl now with
  | error e => rfl
  | ok r =>
    exfalso
    obtain ⟨hne, -, -, hc, hhc, hact, -⟩ := staking_options_liq_ok_elim hres
    obtain ⟨ae2, le2, ap, lp, tl, ta, hc1, hc2, hae2, hle2, hw1, hw2, hw3,
      hap, hsign1, hlp, hsign2, -⟩ := liquidation_action_ok_elim hne hact
    rcases hbad with hbad | hbad | hbad
    · exact hne hbad
    · rw [Account.native_for, hap] at hbad
      rw [TokenPosition.native] at hsign1
      exact absurd (lt_of_lt_of_le hsign1 hbad) (by simp)
    · rw [Account.native_for, hlp] at hbad
      rw [TokenPosition.native] at hsign2
      exact absurd (lt_of_lt_of_le hsign2 hbad) (by simp)

/-- C3: after a successful liquidation action, a liquidator that is not in
a health region and whose own post-action Init health is negative makes
the whole call fail with HealthMustBePositive (so none of the action's
mutations commit), while a liquidator flagged in a health region commits
with the post-check skipped entirely. -/
theorem liq_liqor_health_postcheck (ctx : LiqAccounts) (ai li : Nat) (maxl : ℚ)
    (now : Nat) (hc : HealthCache) (r : LiqResult)
    (h1 : ai ≠ li) (h2 : ctx.liqor_key ≠ ctx.liqee_key)
    (h3 : ctx.liqor.is_owner_or_delegate ctx.liqor_owner = true)
    (hhc : new_health_cache ctx.liqee ctx.remaining_accounts = Except.ok hc)
    (hact : liquidation_action ctx.remaining_accounts li ai ctx.liqor ctx.liqee hc
      (hc.health .init) now maxl = Except.ok r) :
    (∀ q, r.liqor.in_health_region = false →
      compute_health r.liqor .init ctx.remaining_accounts = Except.ok q → q < 0 →
      staking_options_liq ctx ai li maxl now = Except.error .healthMustBePositive) ∧
    (r.liqor.in_health_region = true →
      staking_options_liq ctx ai li maxl now = Except.ok r) := by
  constructor
  · intro q hreg hq hq0
    exact staking_options_liq_liqor_unhealthy h1 h2 h3 hhc hact hreg hq hq0
  · intro hreg
    exact staking_options_liq_of_region h1 h2 h3 hhc hact hreg

theorem dusted_of_nonpos {x : ℚ} (hx : x ≤ 0) : dusted x = x := by
  rw [dusted]
  by_cases h0 : 0 ≤ x ∧ x < 1
  · rw [if_pos h0]
    exact (le_antisymm hx h0.1).symm ▸ rfl
  · rw [if_neg h0]

theorem contribution_update (ti : TokenInfo) (v : ℚ) (t : HealthType) :
    ({ ti with balance_native := v } : TokenInfo).contribution t
      = if 0 ≤ v then v * ti.asset_weight t * ti.prices.asset t
        else v * ti.liab_weight t * ti.prices.liab t := by
  cases t <;> rfl

/-- Adjusting the first entry of a token index shifts the total health by
that entry's contribution change and leaves every other index's first
entry unchanged. -/
theorem adjust_first_spec (l : List TokenInfo) (i : Nat) (d : ℚ) {ti : TokenInfo}
    (hfind : l.find? (fun x => x.token_index == i) = some ti) (t : HealthType) :
    ((adjust_first l i d).map (fun x => x.contribution t)).sum
      = (l.map (fun x => x.contribution t)).sum
        + ({ ti with balance_native := ti.balance_native + d } : TokenInfo).contribution t
        - ti.contribution t ∧
    (∀ j, j ≠ i → (adjust_first l i d).find? (fun x => x.token_index == j)
      = l.find? (fun x => x.token_index == j)) := by
  induction l with
  | nil => exact absurd hfind (by simp)
  | cons x xs ih =>
    rw [List.find?] at hfind
    cases hx : (x.token_index == i) with
    | true =>
      rw [hx] at hfind
      obtain rfl : x = ti := Option.some.inj hfind
      rw [adjust_first, if_pos hx]
      constructor
      · simp only [List.map_cons, List.sum_cons]
        ring
      · intro j hj
        have hxi : x.token_index = i := by simpa using hx
        have hxj : (x.token_index == j) = false := by
          simp only [beq_eq_false_iff_ne, ne_eq, hxi]
          exact Ne.symm hj
        rw [List.find?, List.find?]
        simp only [hxj]
    | false =>
      rw [hx] at hfind
      rw [adjust_first, if_neg (by simp [hx])]
      obtain ⟨ihs, ihf⟩ := ih hfind
      constructor
      · simp only [List.map_cons, List.sum_cons, ihs]
        ring
      · intro j hj
        rw [List.find?, List.find?]
        cases hxj : (x.token_index == j) with
        | true => simp only [hxj]
        | false =>
          simp only [hxj]
          exact ihf j hj

/-- Inversion of a successful incremental cache adjustment. -/
theorem adjust_token_balance_ok {hc : HealthCache} {b : Bank} {d : ℚ}
    {hc' : HealthCache} (h : hc.adjust_token_balance b d = Except.ok hc') :
    ∃ ti, hc.token_info b.token_index = some ti ∧
      hc' = { token_infos := adjust_first hc.token_infos b.token_index d } := by
  rw [HealthCache.adjust_token_balance] at h
  by_cases hany : hc.token_infos.any (fun ti => ti.token_index == b.token_index) = true
  · rw [if_pos hany] at h
    have hsome : (hc.token_infos.find? (fun ti => ti.token_index == b.token_index)).isSome := by
      rw [List.find?_isSome]
      simpa using hany
    obtain ⟨ti, hti⟩ := Option.isSome_iff_exists.mp hsome
    exact ⟨ti, hti, (Except.ok.inj h).symm⟩
  · rw [if_neg hany] at h
    exact absurd h (by simp)

/-- Health effect of a successful incremental cache adjustment. -/
theorem adjust_token_balance_health {hc : HealthCache} {b : Bank} {d : ℚ}
    {hc' : HealthCache} (h : hc.adjust_token_balance b d = Except.ok hc')
    (t : HealthType) :
    ∃ ti, hc.token_info b.token_index = some ti ∧
      hc'.health t = hc.health t
        + ({ ti with balance_native := ti.balance_native + d } : TokenInfo).contribution t
        - ti.contribution t ∧
      (∀ j, j ≠ b.token_index → hc'.token_info j = hc.token_info j) := by
  obtain ⟨ti, hti, hstruct⟩ := adjust_token_balance_ok h
  obtain ⟨hsum, hfind⟩ := adjust_first_spec hc.token_infos b.token_index d hti t
  refine ⟨ti, hti, ?_, ?_⟩
  · rw [hstruct]
    exact hsum
  · intro j hj
    rw [hstruct]
    exact hfind j hj

/-- C6 (amended): after a successful staking-options liquidation, when the
expiring asset's Init asset weight is configured to zero (as the module
intends for assets whose health contribution has dropped to zero), the
executed transfer is non-negative, the liquidatee's post-transfer asset
balance is non-negative, and the liability weight times its Init health
price is non-negative, the liquidatee's cache Init health is at least its
pre-action value, and strictly above it when the transfer and the weighted
liability price are positive. Without the zero-asset-weight and
non-negative-transfer conditions the health can decrease; in particular a
call against a liquidatee whose pre-action health is positive, which the
claim explicitly includes, sizes a negative transfer and strictly lowers
health (see the counterexample). -/
theorem liq_liqee_health_monotonic (ctx : LiqAccounts) (ai li : Nat) (maxl : ℚ)
    (now : Nat) (r : LiqResult) (ae le : RetrieverEntry)
    (hae : lookup_bank ctx.remaining_accounts ai = some ae)
    (hle : lookup_bank ctx.remaining_accounts li = some le)
    (h : staking_options_liq ctx ai li maxl now = Except.ok r)
    (hweight : ae.bank.init_asset_weight = 0)
    (hL : 0 ≤ r.liab_transfer)
    (hA : 0 ≤ r.liqee_assets_native_after)
    (hP : 0 ≤ le.bank.init_liab_weight * le.prices.liab_init) :
    r.liqee_liq_end_health ≤ r.liqee_health_cache.health .init ∧
    (0 < r.liab_transfer → 0 < le.bank.init_liab_weight * le.prices.liab_init →
      r.liqee_liq_end_health < r.liqee_health_cache.health .init) := by
  obtain ⟨hne, hkey, hown, hc, hhc, hact, hpost⟩ := staking_options_liq_ok_elim h
  obtain ⟨ae2, le2, ap, lp, tl, ta, hc1, hc2, hae2, hle2, hw1, hw2, hw3,
    hap, hsign1, hlp, hsign2, htl, hta, hnz1, hnz2, hnz3, hH0, hAN, hLN,
    hLT, hAT, hLA, hAA, hadj1, hadj2, hcache⟩ := liquidation_action_ok_elim hne hact
  have hA2 : ae = ae2 := Option.some.inj (hae.symm.trans hae2)
  have hL2 : le = le2 := Option.some.inj (hle.symm.trans hle2)
  subst hA2
  subst hL2
  obtain ⟨el, hlookl, htil⟩ := new_health_cache_token_info hhc hlp
  have hEl : el = le := Option.some.inj (hlookl.symm.trans hle)
  rw [hEl] at htil
  have hTL : tl = mk_token_info lp.1 le := Option.some.inj (htl.symm.trans htil)
  obtain ⟨ea, hlooka, htia⟩ := new_health_cache_token_info hhc hap
  have hEa : ea = ae := Option.some.inj (hlooka.symm.trans hae)
  rw [hEa] at htia
  have hTA : ta = mk_token_info ap.1 ae := Option.some.inj (hta.symm.trans htia)
  have hlidx : le.bank.token_index = li := lookup_bank_token_index hle
  have haidx : ae.bank.token_index = ai := lookup_bank_token_index hae
  -- the liability-side delta is exactly the transfer
  have hble : lp.1.native le.bank + r.liab_transfer ≤ 0 := by
    have : r.liab_transfer ≤ -(lp.1.native le.bank) := by
      rw [hLT]
      exact le_trans (min_le_left _ _) (le_trans (min_le_left _ _) (min_le_right _ _))
    linarith
  have hdl : r.liqee_liab_native_after = lp.1.native le.bank + r.liab_transfer := by
    rw [hLA]
    exact dusted_of_nonpos hble
  -- first adjustment: liability entry
  obtain ⟨ti1, hti1, hsum1, hpre1⟩ := adjust_token_balance_health hadj1 .init
  rw [hlidx] at hti1 hpre1
  have hti1e : ti1 = tl := Option.some.inj (hti1.symm.trans htl)
  rw [hti1e] at hsum1
  -- second adjustment: asset entry, unchanged by the first
  obtain ⟨ti2, hti2, hsum2, hpre2⟩ := adjust_token_balance_health hadj2 .init
  rw [haidx] at hti2
  rw [hpre1 ai hne] at hti2
  have hti2e : ti2 = ta := Option.some.inj (hti2.symm.trans hta)
  rw [hti2e] at hsum2
  -- compute the two contribution changes
  have hbal_l : tl.balance_native = lp.1.native le.bank := by
    rw [hTL]
    rfl
  have hcontrib_l :
      ({ tl with balance_native := tl.balance_native
          + (r.liqee_liab_native_after - r.liqee_liab_native) } : TokenInfo).contribution .init
        - tl.contribution .init
      = r.liab_transfer * (le.bank.init_liab_weight * le.prices.liab_init) := by
    have hwts : tl.init_liab_weight = le.bank.init_liab_weight := by rw [hTL]; rfl
    have hprs : tl.prices = le.prices := by rw [hTL]; rfl
    have hnewv : tl.balance_native + (r.liqee_liab_native_after - r.liqee_liab_native)
        = lp.1.native le.bank + r.liab_transfer := by
      rw [hbal_l, hLN, hdl]
      ring
    rw [contribution_update, TokenInfo.contribution, hnewv, hbal_l]
    have hbneg : lp.1.native le.bank < 0 := hsign2
    rcases lt_or_eq_of_le hble with hlt | heq
    · rw [if_neg (by linarith), if_neg (by linarith)]
      simp only [TokenInfo.liab_weight, hwts, hprs, Prices.liab]
      ring
    · rw [heq, if_pos le_rfl, if_neg (by linarith)]
      simp only [TokenInfo.liab_weight, hwts, hprs, Prices.liab]
      have hLval : r.liab_transfer = -(lp.1.native le.bank) := by linarith
      rw [hLval]
      ring
  have hbal_a : ta.balance_native = ap.1.native ae.bank := by
    rw [hTA]
    rfl
  have hcontrib_a :
      ({ ta with balance_native := ta.balance_native
          + (r.liqee_assets_native_after - r.liqee_asset_native) } : TokenInfo).contribution .init
        - ta.contribution .init = 0 := by
    have hwts : ta.init_asset_weight = ae.bank.init_asset_weight := by rw [hTA]; rfl
    have hnewv : ta.balance_native + (r.liqee_assets_native_after - r.liqee_asset_native)
        = r.liqee_assets_native_after := by
      rw [hbal_a, hAN]
      ring
    rw [contribution_update, TokenInfo.contribution, hnewv, hbal_a]
    rw [if_pos hA, if_pos (le_of_lt hsign1)]
    simp only [TokenInfo.asset_weight, hwts, hweight]
    ring
  -- assemble
  have hfinal : r.liqee_health_cache.health .init
      = r.liqee_liq_end_health + r.liab_transfer * (le.bank.init_liab_weight * le.prices.liab_init) := by
    rw [hcache, hsum2]
    have : hc1.health .init = hc.health .init
        + r.liab_transfer * (le.bank.init_liab_weight * le.prices.liab_init) := by
      rw [hsum1]
      have := hcontrib_l
      linarith
    rw [this, hH0]
    have := hcontrib_a
    linarith
  constructor
  · rw [hfinal]
    have := mul_nonneg hL hP
    linarith
  · intro hL' hP'
    rw [hfinal]
    have := mul_pos hL' hP'
    linarith

/-! ### Preservation lemmas for account slots -/

theorem map_token_index_set {l : List TokenPosition} {rr : Nat} {p p' : TokenPosition}
    (hl : l[rr]? = some p) (hidx : p'.token_index = p.token_index) :
    (l.set rr p').map (fun q => q.token_index) = l.map (fun q => q.token_index) := by
  induction l generalizing rr with
  | nil => simp at hl
  | cons x xs ih =>
    cases rr with
    | zero =>
      simp only [List.getElem?_cons_zero] at hl
      obtain rfl : x = p := Option.some.inj hl
      simp [List.set, hidx]
    | succ n =>
      simp only [List.getElem?_cons_succ] at hl
      simp [List.set, ih hl]

theorem getElem?_set_self {l : List TokenPosition} {rr : Nat} {p v : TokenPosition}
    (h : l[rr]? = some p) : (l.set rr v)[rr]? = some v := by
  induction l generalizing rr with
  | nil => simp at h
  | cons x xs ih =>
    cases rr with
    | zero => simp [List.set]
    | succ n =>
      simp only [List.getElem?_cons_succ] at h
      simp [List.set, ih h]

theorem mem_set_cases {l : List TokenPosition} {rr : Nat} {v q : TokenPosition}
    (h : q ∈ l.set rr v) : q = v ∨ q ∈ l := by
  induction l generalizing rr with
  | nil => simp [List.set] at h
  | cons x xs ih =>
    cases rr with
    | zero =>
      rw [List.set] at h
      rcases List.mem_cons.mp h with h | h
      · exact Or.inl h
      · exact Or.inr (List.mem_cons_of_mem _ h)
    | succ n =>
      rw [List.set] at h
      rcases List.mem_cons.mp h with h | h
      · exact Or.inr (by simp [h])
      · rcases ih h with h | h
        · exact Or.inl h
        · exact Or.inr (List.mem_cons_of_mem _ h)

theorem find_token_position_eq_none {l : List TokenPosition} {i : Nat} :
    find_token_position l i = none ↔ ∀ p ∈ l, p.is_active_for_token i = false := by
  induction l with
  | nil => simp [find_token_position]
  | cons x xs ih =>
    rw [find_token_position]
    by_cases hx : x.is_active_for_token i = true
    · rw [if_pos hx]
      simp [hx]
    · have hx' : x.is_active_for_token i = false := by simpa using hx
      rw [if_neg (by simp [hx'])]
      simp [hx', ih, Option.map_eq_none']

theorem find_none_set {l : List TokenPosition} {i rr : Nat} {v : TokenPosition}
    (hall : find_token_position l i = none) (hv : v.is_active_for_token i = false) :
    find_token_position (l.set rr v) i = none := by
  rw [find_token_position_eq_none] at hall ⊢
  intro p hp
  rcases mem_set_cases hp with h | h
  · rw [h]
    exact hv
  · exact hall p h

theorem mem_of_getElem?_pos {l : List TokenPosition} {rr : Nat} {p : TokenPosition}
    (h : l[rr]? = some p) : p ∈ l := by
  induction l generalizing rr with
  | nil => simp at h
  | cons x xs ih =>
    cases rr with
    | zero =>
      simp only [List.getElem?_cons_zero] at h
      exact Option.some.inj h ▸ List.mem_cons_self x xs
    | succ n =>
      simp only [List.getElem?_cons_succ] at h
      exact List.mem_cons_of_mem _ (ih h)

theorem step_set_preserves {acct : Account} {i : Nat} {pr : TokenPosition × Nat}
    (hfind : find_token_position acct.tokens i = some pr) (p' : TokenPosition)
    (hidx : p'.token_index = pr.1.token_index) :
    (acct.set_position pr.2 p').tokens.map (fun q => q.token_index)
      = acct.tokens.map (fun q => q.token_index) := by
  obtain ⟨-, -, hget⟩ := find_token_position_active hfind
  exact map_token_index_set hget hidx

theorem step_set_none {acct : Account} {i j : Nat} {pr : TokenPosition × Nat}
    (hfind : find_token_position acct.tokens i = some pr) (p' : TokenPosition)
    (hsig : p'.is_active_for_token j = pr.1.is_active_for_token j)
    (hnone : find_token_position acct.tokens j = none) :
    find_token_position (acct.set_position pr.2 p').tokens j = none := by
  obtain ⟨-, -, hget⟩ := find_token_position_active hfind
  apply find_none_set hnone
  rw [hsig]
  exact (find_token_position_eq_none.mp hnone) pr.1 (mem_of_getElem?_pos hget)

theorem deactivate_map {acct : Account} {rr : Nat} {p : TokenPosition}
    (hget : acct.tokens[rr]? = some p) :
    (acct.deactivate_token_position_and_log rr).tokens.map (fun q => q.token_index)
      = acct.tokens.map (fun q => q.token_index) := by
  rw [Account.deactivate_token_position_and_log]
  simp only [hget]
  exact map_token_index_set hget rfl

theorem deactivate_find_none {acct : Account} (rr : Nat) {j : Nat}
    (hnone : find_token_position acct.tokens j = none) :
    find_token_position (acct.deactivate_token_position_and_log rr).tokens j = none := by
  rw [Account.deactivate_token_position_and_log]
  apply find_none_set hnone
  cases acct.tokens[rr]? <;> rfl

theorem map_after_maybe_deactivate (acct : Account) (b : Bool) {rr : Nat}
    {p : TokenPosition} (hget : acct.tokens[rr]? = some p) :
    (if !b then acct.deactivate_token_position_and_log rr
      else acct).tokens.map (fun q => q.token_index)
      = acct.tokens.map (fun q => q.token_index) := by
  cases b
  · simp only [Bool.not_false, if_true]
    exact deactivate_map hget
  · simp only [Bool.not_true, Bool.false_eq_true, if_false]

theorem find_none_after_maybe_deactivate (acct : Account) (b : Bool) (rr : Nat)
    {j : Nat} (hnone : find_token_position acct.tokens j = none) :
    find_token_position ((if !b then acct.deactivate_token_position_and_log rr
      else acct)).tokens j = none := by
  cases b
  · simp only [Bool.not_false, if_true]
    exact deactivate_find_none rr hnone
  · simpa only [Bool.not_true, Bool.false_eq_true, if_false] using hnone

/-- C9: staking_options_exercise never creates a token position: on
success, the account's slots carry exactly the token indices they carried
before, and the account must already have held an active position in each
of the base, quote and option tokens; contrapositively an account lacking
an active position in any of the three makes the exercise fail with no
update committed (unlike liquidation, whose ensure_token_position creates
liquidator positions on demand). -/
theorem exercise_no_position_creation (ctx : ExerciseAccounts) (amount strike : Nat)
    (r : ExerciseResult) (h : staking_options_exercise ctx amount strike = Except.ok r) :
    r.account.tokens.map (fun p => p.token_index)
      = ctx.account.tokens.map (fun p => p.token_index) ∧
    find_token_position ctx.account.tokens ctx.base_bank.token_index ≠ none ∧
    find_token_position ctx.account.tokens ctx.quote_bank.token_index ≠ none ∧
    find_token_position ctx.account.tokens ctx.option_bank.token_index ≠ none := by
  obtain ⟨pre, after, account5, hpre, hkeys, hcpi, hchecks, happ, htail⟩ :=
    staking_options_exercise_ok_elim h
  rw [exercise_apply_positions_ok] at happ
  obtain ⟨bp, qp, op, hbp, hrest⟩ := happ
  simp only [] at hrest
  obtain ⟨hqp, hop, hacct⟩ := hrest
  have hracc : r.account = account5 := by
    rcases htail with ⟨-, hr⟩ | ⟨hp, post, -, -, hr⟩ <;> rw [hr]
  refine ⟨?_, by simp [hbp], ?_, ?_⟩
  · rw [hracc, hacct]
    refine Eq.trans (map_after_maybe_deactivate _ _
      (getElem?_set_self (find_token_position_active hop).2.2)) ?_
    refine Eq.trans (step_set_preserves hop _ rfl) ?_
    refine Eq.trans (map_after_maybe_deactivate _ _
      (getElem?_set_self (find_token_position_active hqp).2.2)) ?_
    refine Eq.trans (step_set_preserves hqp _ rfl) ?_
    exact step_set_preserves hbp _ rfl
  · intro hnone
    have hn1 := step_set_none hbp
      (ctx.base_bank.deposit bp.1
        ((amount * ctx.staking_options_state.lot_size : Nat) : ℚ)).1 rfl hnone
    rw [hn1] at hqp
    exact Option.noConfusion hqp
  · intro hnone
    have hn1 := step_set_none hbp
      (ctx.base_bank.deposit bp.1
        ((amount * ctx.staking_options_state.lot_size : Nat) : ℚ)).1 rfl hnone
    have hn2 := step_set_none hqp
      (ctx.quote_bank.withdraw_with_fee qp.1 ((amount * strike : Nat) : ℚ)).1 rfl hn1
    have hn3 := find_none_after_maybe_deactivate _
      (ctx.quote_bank.withdraw_with_fee qp.1 ((amount * strike : Nat) : ℚ)).2.1 qp.2 hn2
    rw [hn3] at hop
    exact Option.noConfusion hop

/-- C4: for an exercise by an account not flagged in a health region, the
Init pre-health is captured from the pre-state cache, and on success the
post health, obtained by adjusting exactly that captured cache by the
three deltas (base up amount times lot size, quote down amount times
strike, option down amount), is at least the captured pre value, not
merely at least zero; an account flagged in a health region skips both
checks entirely, so the call's outcome does not depend on the health
retriever at all. -/
theorem exercise_health_bracket (ctx : ExerciseAccounts) (amount strike : Nat)
    (r : ExerciseResult) :
    (ctx.account.in_health_region = false →
      staking_options_exercise ctx amount strike = Except.ok r →
      ∃ hc hc1 hc2 hc3,
        new_health_cache ctx.account ctx.remaining_accounts = Except.ok hc ∧
        hc.adjust_token_balance ctx.base_bank
          ((amount * ctx.staking_options_state.lot_size : Nat) : ℚ) = Except.ok hc1 ∧
        hc1.adjust_token_balance ctx.quote_bank
          (-((amount * strike : Nat) : ℚ)) = Except.ok hc2 ∧
        hc2.adjust_token_balance ctx.option_bank
          (-((amount : Nat) : ℚ)) = Except.ok hc3 ∧
        r.pre_init_health = some (hc.health .init) ∧
        r.post_init_health = some (hc3.health .init) ∧
        hc.health .init ≤ hc3.health .init) ∧
    (ctx.account.in_health_region = true →
      ∀ retr2, staking_options_exercise ctx amount strike
        = staking_options_exercise { ctx with remaining_accounts := retr2 }
            amount strike) := by
  constructor
  · intro hihr h
    obtain ⟨pre, after, account5, hpre, hkeys, hcpi, hchecks, happ, htail⟩ :=
      staking_options_exercise_ok_elim h
    rw [exercise_pre_health_not_region hihr] at hpre
    obtain ⟨hc, hhc, hpre2⟩ := hpre
    subst hpre2
    rcases htail with ⟨hnone, -⟩ | ⟨hp, post, hsome, hpost, hr⟩
    · exact absurd hnone (by simp)
    · have hp2 : hp = (hc, hc.health .init) := (Option.some.inj hsome).symm
      subst hp2
      rw [exercise_post_health_ok] at hpost
      obtain ⟨hc1, hc2, hc3, h1, h2, h3, hle, hposteq⟩ := hpost
      refine ⟨hc, hc1, hc2, hc3, hhc, h1, h2, h3, ?_, ?_, hle⟩
      · rw [hr]
      · rw [hr, hposteq]
  · intro hihr retr2
    have h1 : exercise_pre_health ctx = Except.ok none := by
      simp only [exercise_pre_health, Account.is_in_health_region, hihr, Bool.not_true,
        Bool.false_eq_true, if_false]
      rfl
    have h2 : exercise_pre_health { ctx with remaining_accounts := retr2 }
        = Except.ok none := by
      simp only [exercise_pre_health, Account.is_in_health_region, hihr, Bool.not_true,
        Bool.false_eq_true, if_false]
      rfl
    simp only [staking_options_exercise]
    rw [except_bind_ok_eq h1, except_bind_ok_eq h2]
    rfl

/-- C10: perp_edit_market leaves every field whose option argument is none
unchanged, and leaves name, group, bids, asks, event_queue,
quote_lot_size, base_lot_size, long_funding, short_funding,
funding_last_updated, open_interest, seq_num, fees_accrued, bump,
perp_market_index and quote_token_index unchanged regardless of the
arguments supplied. -/
theorem perp_edit_market_frame (pm : PerpMarket)
    (o1 : Option Nat) (o2 : Option OracleConfig) (o3 o4 : Option Nat)
    (o5 o6 o7 o8 o9 o10 o11 o12 o13 : Option ℚ) (o14 : Option Int) :
    (o1 = none →
      (perp_edit_market pm o1 o2 o3 o4 o5 o6 o7 o8 o9 o10 o11 o12 o13 o14).oracle
        = pm.oracle) ∧
    (o2 = none →
      (perp_edit_market pm o1 o2 o3 o4 o5 o6 o7 o8 o9 o10 o11 o12 o13 o14).oracle_config
        = pm.oracle_config) ∧
    (o3 = none →
      (perp_edit_market pm o1 o2 o3 o4 o5 o6 o7 o8 o9 o10 o11 o12 o13 o14).base_token_index
        = pm.base_token_index) ∧
    (o4 = none →
      (perp_edit_market pm o1 o2 o3 o4 o5 o6 o7 o8 o9 o10 o11 o12 o13 o14).base_token_decimals
        = pm.base_token_decimals) ∧
    (o5 = none →
      (perp_edit_market pm o1 o2 o3 o4 o5 o6 o7 o8 o9 o10 o11 o12 o13 o14).maint_asset_weight
        = pm.maint_asset_weight) ∧
    (o6 = none →
      (perp_edit_market pm o1 o2 o3 o4 o5 o6 o7 o8 o9 o10 o11 o12 o13 o14).init_asset_weight
        = pm.init_asset_weight) ∧
    (o7 = none →
      (perp_edit_market pm o1 o2 o3 o4 o5 o6 o7 o8 o9 o10 o11 o12 o13 o14).maint_liab_weight
        = pm.maint_liab_weight) ∧
    (o8 = none →
      (perp_edit_market pm o1 o2 o3 o4 o5 o6 o7 o8 o9 o10 o11 o12 o13 o14).init_liab_weight
        = pm.init_liab_weight) ∧
    (o9 = none →
      (perp_edit_market pm o1 o2 o3 o4 o5 o6 o7 o8 o9 o10 o11 o12 o13 o14).liquidation_fee
        = pm.liquidation_fee) ∧
    (o10 = none →
      (perp_edit_market pm o1 o2 o3 o4 o5 o6 o7 o8 o9 o10 o11 o12 o13 o14).maker_fee
        = pm.maker_fee) ∧
    (o11 = none →
      (perp_edit_market pm o1 o2 o3 o4 o5 o6 o7 o8 o9 o10 o11 o12 o13 o14).taker_fee
        = pm.taker_fee) ∧
    (o12 = none →
      (perp_edit_market pm o1 o2 o3 o4 o5 o6 o7 o8 o9 o10 o11 o12 o13 o14).min_funding
        = pm.min_funding) ∧
    (o13 = none →
      (perp_edit_market pm o1 o2 o3 o4 o5 o6 o7 o8 o9 o10 o11 o12 o13 o14).max_funding
        = pm.max_funding) ∧
    (o14 = none →
      (perp_edit_market pm o1 o2 o3 o4 o5 o6 o7 o8 o9 o10 o11 o12 o13 o14).impact_quantity
        = pm.impact_quantity) ∧
    (perp_edit_market pm o1 o2 o3 o4 o5 o6 o7 o8 o9 o10 o11 o12 o13 o14).name = pm.name ∧
    (perp_edit_market pm o1 o2 o3 o4 o5 o6 o7 o8 o9 o10 o11 o12 o13 o14).group = pm.group ∧
    (perp_edit_market pm o1 o2 o3 o4 o5 o6 o7 o8 o9 o10 o11 o12 o13 o14).bids = pm.bids ∧
    (perp_edit_market pm o1 o2 o3 o4 o5 o6 o7 o8 o9 o10 o11 o12 o13 o14).asks = pm.asks ∧
    (perp_edit_market pm o1 o2 o3 o4 o5 o6 o7 o8 o9 o10 o11 o12 o13 o14).event_queue
      = pm.event_queue ∧
    (perp_edit_market pm o1 o2 o3 o4 o5 o6 o7 o8 o9 o10 o11 o12 o13 o14).quote_lot_size
      = pm.quote_lot_size ∧
    (perp_edit_market pm o1 o2 o3 o4 o5 o6 o7 o8 o9 o10 o11 o12 o13 o14).base_lot_size
      = pm.base_lot_size ∧
    (perp_edit_market pm o1 o2 o3 o4 o5 o6 o7 o8 o9 o10 o11 o12 o13 o14).long_funding
      = pm.long_funding ∧
    (perp_edit_market pm o1 o2 o3 o4 o5 o6 o7 o8 o9 o10 o11 o12 o13 o14).short_funding
      = pm.short_funding ∧
    (perp_edit_market pm o1 o2 o3 o4 o5 o6 o7 o8 o9 o10 o11 o12 o13 o14).funding_last_updated
      = pm.funding_last_updated ∧
    (perp_edit_market pm o1 o2 o3 o4 o5 o6 o7 o8 o9 o10 o11 o12 o13 o14).open_interest
      = pm.open_interest ∧
    (perp_edit_market pm o1 o2 o3 o4 o5 o6 o7 o8 o9 o10 o11 o12 o13 o14).seq_num
      = pm.seq_num ∧
    (perp_edit_market pm o1 o2 o3 o4 o5 o6 o7 o8 o9 o10 o11 o12 o13 o14).fees_accrued
      = pm.fees_accrued ∧
    (perp_edit_market pm o1 o2 o3 o4 o5 o6 o7 o8 o9 o10 o11 o12 o13 o14).bump = pm.bump ∧
    (perp_edit_market pm o1 o2 o3 o4 o5 o6 o7 o8 o9 o10 o11 o12 o13 o14).perp_market_index
      = pm.perp_market_index ∧
    (perp_edit_market pm o1 o2 o3 o4 o5 o6 o7 o8 o9 o10 o11 o12 o13 o14).quote_token_index
      = pm.quote_token_index :=
  ⟨fun h => by subst h; rfl, fun h => by subst h; rfl, fun h => by subst h; rfl,
   fun h => by subst h; rfl, fun h => by subst h; rfl, fun h => by subst h; rfl,
   fun h => by subst h; rfl, fun h => by subst h; rfl, fun h => by subst h; rfl,
   fun h => by subst h; rfl, fun h => by subst h; rfl, fun h => by subst h; rfl,
   fun h => by subst h; rfl, fun h => by subst h; rfl,
   rfl, rfl, rfl, rfl, rfl, rfl, rfl, rfl, rfl, rfl, rfl, rfl, rfl, rfl, rfl, rfl⟩

/-- A concrete perp market for the frame witness. -/
def pm0 : PerpMarket :=
  { name := 1, group := 2, oracle := 3, oracle_config := { conf_filter := 0 },
    bids := 4, asks := 5, event_queue := 6, quote_lot_size := 10,
    base_lot_size := 100, maint_asset_weight := 1, init_asset_weight := 1,
    maint_liab_weight := 1, init_liab_weight := 1, liquidation_fee := 0,
    maker_fee := 0, taker_fee := 0, min_funding := 0, max_funding := 0,
    impact_quantity := 7, long_funding := 0, short_funding := 0,
    funding_last_updated := 8, open_interest := 9, seq_num := 10,
    fees_accrued := 0, bump := 11, base_token_decimals := 6,
    perp_market_index := 12, base_token_index := 13, quote_token_index := 14 }

def pm0_edited : PerpMarket :=
  perp_edit_market pm0 none none none none none none none none none none none
    none none none

/-- Witness for C10: all options none at a concrete market. -/
theorem perp_edit_market_frame_witness :
    pm0_edited.oracle = pm0.oracle ∧
    pm0_edited.oracle_config = pm0.oracle_config ∧
    pm0_edited.base_token_index = pm0.base_token_index ∧
    pm0_edited.base_token_decimals = pm0.base_token_decimals ∧
    pm0_edited.maint_asset_weight = pm0.maint_asset_weight ∧
    pm0_edited.init_asset_weight = pm0.init_asset_weight ∧
    pm0_edited.maint_liab_weight = pm0.maint_liab_weight ∧
    pm0_edited.init_liab_weight = pm0.init_liab_weight ∧
    pm0_edited.liquidation_fee = pm0.liquidation_fee ∧
    pm0_edited.maker_fee = pm0.maker_fee ∧
    pm0_edited.taker_fee = pm0.taker_fee ∧
    pm0_edited.min_funding = pm0.min_funding ∧
    pm0_edited.max_funding = pm0.max_funding ∧
    pm0_edited.impact_quantity = pm0.impact_quantity ∧
    pm0_edited.name = pm0.name ∧
    pm0_edited.quote_token_index = pm0.quote_token_index := by
  obtain ⟨a1, a2, a3, a4, a5, a6, a7, a8, a9, a10, a11, a12, a13, a14,
    b1, b2, b3, b4, b5, b6, b7, b8, b9, b10, b11, b12, b13, b14, b15, b16⟩ :=
    perp_edit_market_frame pm0 none none none none none none none none none none
      none none none none
  exact ⟨a1 rfl, a2 rfl, a3 rfl, a4 rfl, a5 rfl, a6 rfl, a7 rfl, a8 rfl, a9 rfl,
    a10 rfl, a11 rfl, a12 rfl, a13 rfl, a14 rfl, b1, b16⟩

/-- C1: staking_options_exercise commits only when, across the external
settlement call, the base vault grew by exactly amount times lot_size, the
quote vault shrank by exactly amount times strike and the option vault
shrank by exactly amount; contrapositively, for every amount, strike,
lot size and any triple of post-call vault balances violating one of the
three delta equations, the call aborts with an error and, the handler
being a single atomic transaction, no ledger or position mutation is
observed. -/
theorem exercise_settlement_integrity (ctx : ExerciseAccounts) (amount strike : Nat)
    (r : ExerciseResult) (h : staking_options_exercise ctx amount strike = Except.ok r) :
    ∃ ba qa oa, ctx.cpi_result = some (ba, qa, oa) ∧
      ba = ctx.base_vault_amount + amount * ctx.staking_options_state.lot_size ∧
      ctx.quote_vault_amount = qa + amount * strike ∧
      ctx.option_vault_amount = oa + amount := by
  obtain ⟨pre, after, account5, hpre, hkeys, hcpi, hchecks, happ, htail⟩ :=
    staking_options_exercise_ok_elim h
  have hch := exercise_settlement_checks_ok hchecks
  exact ⟨after.1, after.2.1, after.2.2, hcpi, hch.1, hch.2.1, hch.2.2⟩

/-! ### Concrete environments -/

/-- Exercise scenario: quote bank, token index 0. -/
def quote_bank_x : Bank :=
  { token_index := 0, init_asset_weight := 1, init_liab_weight := 1,
    maint_asset_weight := 1, maint_liab_weight := 1,
    liquidation_fee := 0, loan_origination_fee_rate := 0,
    staking_options_expiration := 0, staking_options_state := 0, vault := 200 }

/-- Exercise scenario: base bank, token index 1. -/
def base_bank_x : Bank :=
  { token_index := 1, init_asset_weight := 1, init_liab_weight := 1,
    maint_asset_weight := 1, maint_liab_weight := 1,
    liquidation_fee := 0, loan_origination_fee_rate := 0,
    staking_options_expiration := 0, staking_options_state := 0, vault := 201 }

/-- Exercise scenario: option bank, token index 2, zero asset weight as
configured for an expiring instrument. -/
def option_bank_x : Bank :=
  { token_index := 2, init_asset_weight := 0, init_liab_weight := 1,
    maint_asset_weight := 0, maint_liab_weight := 1,
    liquidation_fee := 0, loan_origination_fee_rate := 0,
    staking_options_expiration := 1600, staking_options_state := 7, vault := 202 }

def retr_x : Retriever :=
  [{ bank := quote_bank_x, prices := prices_one },
   { bank := base_bank_x, prices := prices_one },
   { bank := option_bank_x, prices := prices_one }]

/-- Exercise scenario account: one million native in each of quote, base
and option, as in the end-to-end test. -/
def account_x : Account :=
  { owner := 1, delegate := 0, in_health_region := false,
    tokens := [{ token_index := 0, native_balance := 1000000, active := true },
               { token_index := 1, native_balance := 1000000, active := true },
               { token_index := 2, native_balance := 1000000, active := true }] }

/-- Exercise scenario: an external call that honestly moves one option at
strike 1000000 and lot size 1000000. -/
def ctx_x : ExerciseAccounts :=
  { account := account_x, base_bank := base_bank_x, quote_bank := quote_bank_x,
    option_bank := option_bank_x,
    base_vault := 201, quote_vault := 200, option_vault := 202,
    staking_options_state := { key := 7, lot_size := 1000000 },
    base_vault_amount := 5000000, quote_vault_amount := 3000000,
    option_vault_amount := 2000000,
    remaining_accounts := retr_x,
    cpi_result := some (6000000, 2000000, 1999999) }

instance : Inhabited ExerciseResult :=
  ⟨{ account := { owner := 0, delegate := 0, in_health_region := false, tokens := [] },
     pre_init_health := none, post_init_health := none }⟩

/-- The result of the honest concrete exercise run. -/
def res_x : ExerciseResult := (staking_options_exercise ctx_x 1 1000000).toOption.getD default

section RatEval

set_option allowUnsafeReducibility true
attribute [local semireducible] Rat.add Rat.mul Rat.sub Rat.inv

/-- C5 (amended): the liquidation is rejected whenever the asset bank has
no staking-options expiration set, or the expiration is at least 3600
seconds away, or the expiration is strictly in the past (there the u64
time-remaining subtraction aborts); at expiration exactly equal to the
current time the code still permits the liquidation, so only strictly
expired options are unreachable. -/
theorem liq_eligibility_window (ctx : LiqAccounts) (ai li : Nat) (maxl : ℚ)
    (now : Nat) (ae : RetrieverEntry)
    (hae : lookup_bank ctx.remaining_accounts ai = some ae)
    (hbad : ae.bank.staking_options_expiration = 0 ∨
      now + 3600 ≤ ae.bank.staking_options_expiration ∨
      ae.bank.staking_options_expiration < now) :
    (staking_options_liq ctx ai li maxl now).isOk = false ∧
    (staking_options_liq ctx_l5 1 0 1000 1601).isOk = true ∧
    (staking_options_liq ctx_l5 1 0 1000 1599).isOk = false := by
  refine ⟨?_, by decide, by decide⟩
  cases hres : staking_options_liq ctx ai li maxl now with
  | error e => rfl
  | ok r =>
    exfalso
    obtain ⟨hne, -, -, hc, hhc, hact, -⟩ := staking_options_liq_ok_elim hres
    obtain ⟨ae2, le2, ap, lp, tl, ta, hc1, hc2, hae2, hle2, hw1, hw2, hw3, -⟩ :=
      liquidation_action_ok_elim hne hact
    have hA : ae = ae2 := Option.some.inj (hae.symm.trans hae2)
    rw [← hA] at hw1 hw2 hw3
    omega

/-- Witness for C5: the window rejections at concrete boundary inputs:
expiration unset would be one case; here the remaining time is exactly
3600 seconds, and the two boundary conjuncts evaluate concretely. -/
theorem liq_eligibility_window_witness :
    (staking_options_liq ctx_l5 1 0 1000 1600).isOk = false ∧
    (staking_options_liq ctx_l5 1 0 1000 1601).isOk = true ∧
    (staking_options_liq ctx_l5 1 0 1000 1599).isOk = false :=
  liq_eligibility_window ctx_l5 1 0 1000 1600
    { bank := bank_l5, prices := prices_one } (by decide) (by decide)

/-- Counterexample for C5 as stated: an option whose expiration equals the
current time (so expiration is not after the current time) is still
liquidated successfully. -/
theorem liq_expired_boundary_counterexample :
    bank_l1.staking_options_expiration = 1600 ∧
    (staking_options_liq ctx_l 1 0 1000 1600).isOk = true :=
  ⟨by decide, by decide⟩

/-- C8: the end-to-end liquidation scenario of the repository test:
collateral 1000, borrow 350, 2 percent fee; the borrow is fully cleared
and dusted leaving one active liquidatee position, the collateral drops to
643, and the liquidator ends at 99650 borrow-token and 100357
collateral-token native. -/
theorem liq_end_to_end_scenario :
    staking_options_liq ctx_l 1 0 1000 1000 = Except.ok r_l ∧
    r_l.liab_transfer = 350 ∧
    r_l.asset_transfer = 357 ∧
    r_l.liqee.tokens =
      [{ token_index := 1, native_balance := 643, active := true },
       { token_index := 0, native_balance := 0, active := false }] ∧
    (r_l.liqee.tokens.filter (fun p => p.is_active)).length = 1 ∧
    r_l.liqor.tokens =
      [{ token_index := 0, native_balance := 99650, active := true },
       { token_index := 1, native_balance := 100357, active := true }] :=
  ⟨by decide, by decide, by decide, by decide, by decide, by decide⟩

/-- Witness for C7: same token index on both sides is rejected. -/
theorem liq_precondition_failures_witness :
    (staking_options_liq ctx_l 0 0 1000 1000).isOk = false :=
  liq_precondition_failures ctx_l 0 0 1000 1000 (Or.inl rfl)

/-- Witness for C3: the empty liquidator ends underwater and the whole
call fails; flagged in a health region, the same liquidation commits. -/
theorem liq_liqor_health_postcheck_witness :
    staking_options_liq ctx_l3a 1 0 1000 1000 = Except.error .healthMustBePositive ∧
    staking_options_liq ctx_l3b 1 0 1000 1000 = Except.ok r_l3b := by
  constructor
  · exact (liq_liqor_health_postcheck ctx_l3a 1 0 1000 1000 hc_l3 r_l3a
      (by decide) (by decide) (by decide) (by decide) (by decide)).1 q_l3a
      (by decide) (by decide) (by decide)
  · exact (liq_liqor_health_postcheck ctx_l3b 1 0 1000 1000 hc_l3 r_l3b
      (by decide) (by decide) (by decide) (by decide) (by decide)).2 (by decide)

/-- Counterexample for C6 as stated: the claim includes calls made while
the liquidatee's aggregate Init health is still non-negative; in that case
the sizing formula yields a negative transfer and the liquidatee's health
strictly decreases across a successful call (400 down to 0 here). -/
theorem liq_liqee_health_counterexample :
    staking_options_liq ctx_c6 1 0 1000 1000 = Except.ok r_c6 ∧
    r_c6.liqee_liq_end_health = 400 ∧
    r_c6.liqee_health_cache.health .init < r_c6.liqee_liq_end_health :=
  ⟨by decide, by decide, by decide⟩

/-- Witness for C6: the concrete insolvent-liquidatee run, where the
transfer is 350 and health strictly improves. -/
theorem liq_liqee_health_monotonic_witness :
    (r_l.liqee_liq_end_health ≤ r_l.liqee_health_cache.health .init ∧
      (0 < r_l.liab_transfer → 0 < bank_l0.init_liab_weight * prices_one.liab_init →
        r_l.liqee_liq_end_health < r_l.liqee_health_cache.health .init)) ∧
    0 < r_l.liab_transfer :=
  ⟨liq_liqee_health_monotonic ctx_l 1 0 1000 1000 r_l
    { bank := bank_l1, prices := prices_one } { bank := bank_l0, prices := prices_one }
    (by decide) (by decide) (by decide) (by decide) (by decide) (by decide) (by decide),
   by decide⟩

/-- Witness for C2: applied to the concrete liquidation run. -/
theorem liq_transfer_sizing_witness :
    r_l.liab_transfer =
      min (min (min (-r_l.liqee_liq_end_health /
            (bank_l0.init_liab_weight * prices_one.liab_init))
          (-r_l.liqee_liab_native))
        (r_l.liqee_asset_native * prices_one.oracle /
          (prices_one.oracle * (1 + bank_l0.liquidation_fee))))
        1000 ∧
    r_l.asset_transfer = r_l.liab_transfer *
      (prices_one.oracle * (1 + bank_l0.liquidation_fee)) / prices_one.oracle :=
  liq_transfer_sizing ctx_l 1 0 1000 1000 r_l
    { bank := bank_l1, prices := prices_one } { bank := bank_l0, prices := prices_one }
    (by decide) (by decide) (by decide)

/-- Witness for C1: the honest concrete run succeeds and the three delta
equations hold there. -/
theorem exercise_settlement_integrity_witness :
    ∃ ba qa oa, ctx_x.cpi_result = some (ba, qa, oa) ∧
      ba = ctx_x.base_vault_amount + 1 * ctx_x.staking_options_state.lot_size ∧
      ctx_x.quote_vault_amount = qa + 1 * 1000000 ∧
      ctx_x.option_vault_amount = oa + 1 :=
  exercise_settlement_integrity ctx_x 1 1000000 res_x (by decide)

/-- Exercise account flagged as in a health region. -/
def account_xr : Account := { account_x with in_health_region := true }

/-- Exercise scenario with the health-region flag set. -/
def ctx_xr : ExerciseAccounts := { ctx_x with account := account_xr }

/-- Witness for C4: at the honest concrete run the health bracket holds,
and with the health-region flag set the outcome ignores the retriever. -/
theorem exercise_health_bracket_witness :
    (∃ hc hc1 hc2 hc3,
      new_health_cache ctx_x.account ctx_x.remaining_accounts = Except.ok hc ∧
      hc.adjust_token_balance ctx_x.base_bank
        ((1 * ctx_x.staking_options_state.lot_size : Nat) : ℚ) = Except.ok hc1 ∧
      hc1.adjust_token_balance ctx_x.quote_bank
        (-((1 * 1000000 : Nat) : ℚ)) = Except.ok hc2 ∧
      hc2.adjust_token_balance ctx_x.option_bank
        (-((1 : Nat) : ℚ)) = Except.ok hc3 ∧
      res_x.pre_init_health = some (hc.health .init) ∧
      res_x.post_init_health = some (hc3.health .init) ∧
      hc.health .init ≤ hc3.health .init) ∧
    staking_options_exercise ctx_xr 1 1000000
      = staking_options_exercise { ctx_xr with remaining_accounts := [] } 1 1000000 :=
  ⟨(exercise_health_bracket ctx_x 1 1000000 res_x).1 (by decide) (by decide),
   (exercise_health_bracket ctx_xr 1 1000000 default).2 (by decide) []⟩

/-- Witness for C9: the honest concrete run preserves the token-position
layout and all three positions pre-exist. -/
theorem exercise_no_position_creation_witness :
    res_x.account.tokens.map (fun p => p.token_index)
      = ctx_x.account.tokens.map (fun p => p.token_index) ∧
    find_token_position ctx_x.account.tokens ctx_x.base_bank.token_index ≠ none ∧
    find_token_position ctx_x.account.tokens ctx_x.quote_bank.token_index ≠ none ∧
    find_token_position ctx_x.account.tokens ctx_x.option_bank.token_index ≠ none :=
  exercise_no_position_creation ctx_x 1 1000000 res_x (by decide)

end RatEval

end Mango
